import Mathlib

/-!
Shallow embedding of the benchmark aggregation engine of `benchmark_db_utils.py`
(class `BenchmarkDBUtils`): the long-table builder
(`generate_dataframe_from_sys_infos`), the Gini calculator (`_gini`), the view
aggregator (`aggregate_view`), the pivot formatter (`dataframe_to_table` with
`_col_name`) and the trend/plot generator (`generate_plots`).

Pandas dataframes are modelled as lists of association-list rows together with
an explicit ordered column list; a cell is a string, an exact rational number,
or null (covering both Python `None` and float NaN).  Floating point arithmetic
is modelled by exact rationals; the two transcendental functions used by the
weight-logit adjustment (`np.exp`, `np.log`) are not rational-representable and
are taken as parameters of the environment.  Non-finite results of the Gini
division are tracked through an explicit numerator/denominator pair
(`gini_total` / `gini_den`): the float quotient is non-finite exactly when the
denominator is zero.

External collaborators (the dataset metadata service, the static weight/default
registries imported from the constants module, and the systems returned by the
document store) are supplied through an `Env` record, mirroring how the
aggregation core only consumes them read-only.
-/

set_option maxHeartbeats 1000000

deriving instance DecidableEq for Except

namespace GlobalBench

/-- A dataframe cell: a Python string, a numeric value (exact rational standing
in for a float), or null (Python `None` / float NaN, both of which are "null"
for pandas `isnull`). -/
inductive Cell where
  | str : String → Cell
  | num : ℚ → Cell
  | null : Cell
deriving DecidableEq, Repr

namespace Cell

/-- True for the null cell (pandas `isnull`). -/
def isNull : Cell → Bool
  | .null => true
  | _ => false

/-- True for a numeric cell. -/
def isNum : Cell → Bool
  | .num _ => true
  | _ => false

/-- True for a string cell. -/
def isStr : Cell → Bool
  | .str _ => true
  | _ => false

/-- Numeric payload of a cell, if any. -/
def toNum? : Cell → Option ℚ
  | .num q => some q
  | _ => none

/-- Python `==` comparison of a cell against a string (used by membership tests
such as `lang not in df[col].values`): only a string cell can equal a string. -/
def eqStr (c : Cell) (s : String) : Bool :=
  match c with
  | .str t => t = s
  | _ => false

/-- Rank used to order cells of distinct kinds; the tables the engine sorts
have homogeneous (string) key columns, so the cross-kind order is arbitrary. -/
def rank : Cell → Nat
  | .null => 0
  | .num _ => 1
  | .str _ => 2

/-- Lexicographic comparison of character lists by code point — the order
Python uses on strings. -/
def charListLt : List Char → List Char → Bool
  | _, [] => false
  | [], _ :: _ => true
  | c :: cs, d :: ds =>
    if c.toNat < d.toNat then true
    else if d.toNat < c.toNat then false
    else charListLt cs ds

/-- Python's string "strictly less" by code points. -/
def pyStrLt (a b : String) : Bool :=
  charListLt a.data b.data

/-- Total order on cells: by kind rank, then by the natural order of the
payload.  On homogeneous string or numeric data this is exactly the order
Python/pandas sorting uses. -/
def le (a b : Cell) : Bool :=
  match a, b with
  | .num x, .num y => x ≤ y
  | .str x, .str y => pyStrLt x y || x == y
  | _, _ => a.rank ≤ b.rank

/-- Strict comparison used by the trend recorder (`json_dict[k][-1][1] <
v.max()["score"]`): a genuine numeric comparison when both sides are numbers;
any comparison against NaN/null is false, as in IEEE floats. -/
def ltNum (a b : Cell) : Bool :=
  match a, b with
  | .num x, .num y => x < y
  | _, _ => false

end Cell

/-- One dataframe row: an association list from column name to cell.  A column
missing from the row reads as null, which is exactly what `pd.concat` produces
for rows that do not cover every column. -/
abbrev Row := List (String × Cell)

/-- Value of a row at a column: the first entry with that key, as in a Python
dict / pandas label lookup (a missing key reads as null/NaN). -/
def Row.getCol : Row → String → Cell
  | [], _ => Cell.null
  | (k, v) :: r, c => if k = c then v else Row.getCol r c

/-- Insertion-ordered insert-or-replace on an association list (the shape of a
Python dict: an existing key keeps its position, a new key goes last). -/
def upsert [DecidableEq κ] (r : List (κ × β)) (k : κ) (v : β) : List (κ × β) :=
  match r with
  | [] => [(k, v)]
  | (k', v') :: rest => if k' = k then (k, v) :: rest else (k', v') :: upsert rest k v

/-- Dict lookup on an association list. -/
def dictGet [DecidableEq κ] (m : List (κ × β)) (k : κ) : Option β :=
  (m.find? (fun p => p.1 = k)).map (fun p => p.2)

/-- A Python dict built by inserting the pairs in order (later pairs
overwrite). -/
def buildDict [DecidableEq κ] (pairs : List (κ × β)) : List (κ × β) :=
  pairs.foldl (fun m p => upsert m p.1 p.2) []

/-- A pandas dataframe: `idx` names the index columns produced by a `groupby`
aggregation (empty for an ordinary `RangeIndex` frame), `cols` the value
columns, and each row carries cells for both index and value columns. -/
structure DFrame where
  idx : List String
  cols : List String
  rows : List Row
deriving DecidableEq, Repr

namespace DFrame

/-- Cells of one column, top to bottom. -/
def colCells (df : DFrame) (c : String) : List Cell :=
  df.rows.map (fun r => r.getCol c)

/-- Pandas `df.empty`: one of the axes has length zero.  (The engine only
applies it to plain frames, whose axes are the rows and the value columns.) -/
def isEmpty (df : DFrame) : Bool :=
  df.rows.isEmpty || df.cols.isEmpty

/-- A column has numeric (float/int) dtype when every cell is numeric or NaN
and at least one is numeric; this matches pandas dtype inference on the
dict-of-lists data the engine builds (a column holding any string, or only
`None`s, is `object` dtype). -/
def isNumericCol (df : DFrame) (c : String) : Bool :=
  (df.colCells c).all (fun x => x.isNum || x.isNull) && (df.colCells c).any Cell.isNum

/-- The `object`-dtype columns are the non-numeric ones. -/
def isObjectCol (df : DFrame) (c : String) : Bool :=
  !df.isNumericCol c

/-- Pandas `df.isnull().values.any()` over the value cells (the index of a
grouped aggregate is not part of `values`). -/
def hasNull (df : DFrame) : Bool :=
  df.cols.any (fun c => (df.colCells c).any Cell.isNull)

/-- Pandas `df.fillna(0)`: every null value cell becomes 0; the materialised
rows carry one entry per column (index columns keep their cells). -/
def fillna (df : DFrame) : DFrame :=
  { df with
    rows := df.rows.map (fun r =>
      df.idx.map (fun c => (c, r.getCol c)) ++
      df.cols.map (fun c => (c, if (r.getCol c).isNull then Cell.num 0 else r.getCol c))) }

/-- Column assignment `df[c] = cells` (replaces the column's cells; appends the
column if absent). -/
def setCol (df : DFrame) (c : String) (cells : List Cell) : DFrame :=
  { df with
    cols := if c ∈ df.cols then df.cols else df.cols ++ [c],
    rows := (df.rows.zip cells).map (fun rc => upsert rc.1 c rc.2) }

end DFrame

/-- Stable sort by a boolean "less or equal" relation, standing in for the
sorts pandas performs (`groupby(sort=True)`, `sorted`, `sort_values`); ties
keep their input order (the source's `sort_values` leaves tie order
unspecified, and no claim depends on it). -/
def sortBy (le : α → α → Bool) (l : List α) : List α :=
  List.insertionSort (fun a b => le a b = true) l

/-- First-occurrence deduplication (the order in which Python iterates the
keys of a dict built by repeated insertion). -/
def dedupKeep [DecidableEq α] (l : List α) : List α :=
  l.foldl (fun acc x => if x ∈ acc then acc else acc ++ [x]) []

/-- Dataset metadata as the engine consumes it from `DatasetDBUtils`
(`find_datasets` with `strict_name_match=True` and the `total == 1` check):
the dataset name and its ordered language list. -/
structure DatasetMeta where
  dataset_name : String
  languages : List String
deriving DecidableEq, Repr

/-- Environment of external collaborators and constants: the contents of the
`POP_WEIGHT` / `LING_WEIGHT` / `ALL_LANG` constants (imported by the source
from the constants module), the dataset metadata lookup, and the two float
transcendentals `np.exp` / `np.log` used by the weight-logit adjustment, which
have no exact rational counterpart and are therefore parameters. -/
structure Env where
  popWeight : List (String × ℚ)
  lingWeight : List (String × ℚ)
  allLang : List String
  findDataset : Cell → Cell → Option DatasetMeta
  fexp : ℚ → ℚ
  flog : ℚ → ℚ

/-- The `_SPECIAL_WEIGHT_MAPS` class constant:
`{"pop_weight": POP_WEIGHT, "ling_weight": LING_WEIGHT}`. -/
def specialWeightMaps (env : Env) : List (String × List (String × ℚ)) :=
  [("pop_weight", env.popWeight), ("ling_weight", env.lingWeight)]

/-- The `_DEFAULT_SETS` class constant: `{"all_lang": ALL_LANG}`. -/
def defaultSets (env : Env) : List (String × List String) :=
  [("all_lang", env.allLang)]

/-- A weight map as configured on an operation: either an inline mapping or a
string key into `_SPECIAL_WEIGHT_MAPS`. -/
inductive WeightMapRef where
  | inline : List (String × ℚ) → WeightMapRef
  | named : String → WeightMapRef
deriving DecidableEq, Repr

/-- One operation record of a view spec.  `group_by` is kept in its normalised
list form (the source accepts a bare string and wraps it in a list);
option-valued fields model dict keys that may be absent. -/
structure Operation where
  op : String
  group_by : List String := []
  skip_group_system : Bool := false
  weight : Option String := none
  weight_map : Option WeightMapRef := none
  weight_logit_multiplier : Option ℚ := none
  default_set : Option String := none
  column : Option String := none
  num : Option ℚ := none
deriving Repr

/-- A view spec (`BenchmarkViewConfig`): name, optional trend mode, ordered
operations. -/
structure BenchmarkViewConfig where
  name : String
  trend : Option String := none
  operations : List Operation
deriving Repr

/-- A benchmark metric entry: name, optional weight, optional default score. -/
structure BenchmarkMetric where
  name : String
  weight : Option ℚ := none
  default : Option ℚ := none
deriving DecidableEq, Repr

/-- One entry of a benchmark's `datasets` list: an open dict, modelled as its
cell-valued entries in key order plus the optional `metrics` key (whose value
is a list of metric records, not a cell). -/
structure DatasetCfg where
  entries : List (String × Cell)
  metrics : Option (List BenchmarkMetric) := none
deriving Repr

/-- Dict lookup on a dataset config's cell-valued entries. -/
def DatasetCfg.get? (d : DatasetCfg) (k : String) : Option Cell :=
  (d.entries.find? (fun p => p.1 = k)).map (fun p => p.2)

/-- A benchmark config as the aggregation core reads it. -/
structure BenchmarkConfig where
  btype : Option String := none
  datasets : Option (List DatasetCfg) := none
  metrics : Option (List BenchmarkMetric) := none
  views : List BenchmarkViewConfig := []
deriving Repr

/-- A system's dataset binding. -/
structure SysDataset where
  dataset_name : String
  sub_dataset : Option String := none
  split : String
deriving DecidableEq, Repr

/-- A system model as consumed read-only: identity, creator, dataset binding,
the nested results mapping (evaluation level → metric name → score), and the
submission date (an abstract day number, only its order and equality are
used). -/
structure SystemModel where
  system_name : String
  creator : String
  dataset : SysDataset
  results : List (String × List (String × ℚ))
  created_at : Nat := 0
deriving DecidableEq, Repr

/-- Python truthiness-based fallback `a or b` for an optional float `a`
(`None` and `0.0` are falsy). -/
def pyOr (a : Option ℚ) (b : ℚ) : ℚ :=
  match a with
  | some x => if x = 0 then b else x
  | none => b

section Gini

/-- Numeric mean as numpy computes it (`np.mean`); the empty-array case (mean
NaN in numpy) only ever feeds the denominator, where the model's `0` likewise
makes the denominator vanish, i.e. the quotient non-finite. -/
def listMean (x : List ℚ) : ℚ :=
  x.sum / x.length

/-- The summed absolute pairwise differences of `_gini`'s inner loop
(`total += np.sum(np.abs(xi - x[i:]))` over the ascending-sorted array). -/
def gini_total (x : List ℚ) : ℚ :=
  tailSums (sortBy (fun a b => a ≤ b) x)
where
  /-- Sum of `|head - y|` over every later element, accumulated down the
  sorted list. -/
  tailSums : List ℚ → ℚ
    | [] => 0
    | xi :: rest => (rest.map (fun y => |xi - y|)).sum + tailSums rest

/-- The denominator `len(x) ** 2 * np.mean(x)` of the Gini quotient.  The
float quotient `gini_total / gini_den` is non-finite (NaN or inf) exactly when
this denominator is zero. -/
def gini_den (x : List ℚ) : ℚ :=
  (x.length : ℚ) ^ 2 * listMean x

/-- The Gini coefficient value on exact rationals; faithful to the float
computation whenever the denominator is nonzero (rational division by zero
returns 0 and stands in for the non-finite float, which `gini_den = 0`
detects). -/
def gini_val (x : List ℚ) : ℚ :=
  gini_total x / gini_den x

/-- The result cell `_gini` stores for one column: NaN when the column itself
contains NaN (NaN poisons the float total and mean), the quotient otherwise;
a zero denominator yields a non-finite float, represented as null (the only
consumer, `aggregate_view`'s NaN replacement, treats NaN this way; no view
inspects an inf). -/
def giniCell (cs : List Cell) : Cell :=
  if cs.any Cell.isNull then Cell.null
  else
    let x := cs.filterMap Cell.toNum?
    if gini_den x = 0 then Cell.null else Cell.num (gini_val x)

end Gini

section Aggregate

/-- Lexicographic order on group-key tuples. -/
def listCellLe : List Cell → List Cell → Bool
  | [], _ => true
  | _ :: _, [] => false
  | a :: as, b :: bs => if a = b then listCellLe as bs else Cell.le a b

/-- The group key of a row: its cells at the `group_by` columns. -/
def keyTuple (g : List String) (r : Row) : List Cell :=
  g.map r.getCol

/-- Pandas skipna aggregation `mean`: NaN for an all-NaN group. -/
def aggMean (cs : List Cell) : Cell :=
  let ns := cs.filterMap Cell.toNum?
  if ns.isEmpty then Cell.null else Cell.num (ns.sum / ns.length)

/-- Pandas skipna aggregation `sum`: 0 for an all-NaN group. -/
def aggSum (cs : List Cell) : Cell :=
  Cell.num (cs.filterMap Cell.toNum?).sum

/-- Pandas skipna aggregation `max`: NaN for an all-NaN group. -/
def aggMax (cs : List Cell) : Cell :=
  match (cs.filterMap Cell.toNum?).max? with
  | some q => Cell.num q
  | none => Cell.null

/-- Pandas skipna aggregation `min`: NaN for an all-NaN group. -/
def aggMin (cs : List Cell) : Cell :=
  match (cs.filterMap Cell.toNum?).min? with
  | some q => Cell.num q
  | none => Cell.null

/-- The numeric reduction named by `op` (only ever consulted for the four
reducing operation names). -/
def reduceFn : String → (List Cell → Cell)
  | "mean" => aggMean
  | "sum" => aggSum
  | "max" => aggMax
  | "min" => aggMin
  | _ => fun _ => Cell.null

/-- Rows that survive grouping: pandas `groupby` drops rows whose key contains
NaN. -/
def groupableRows (g : List String) (rows : List Row) : List Row :=
  rows.filter (fun r => !(keyTuple g r).any Cell.isNull)

/-- The distinct group keys in sorted order (`groupby` defaults to
`sort=True`). -/
def groupKeys (g : List String) (rows : List Row) : List (List Cell) :=
  sortBy listCellLe (dedupKeep ((groupableRows g rows).map (keyTuple g)))

/-- Grouped aggregation `df.groupby(group_by).<agg>(numeric_only=True)`: one row per group key in
sorted key order; the value columns are the numeric non-key columns (judged on
the whole input frame), each reduced over the group's rows; the key columns
become the index of the result. -/
def groupAgg (df : DFrame) (g : List String) (fn : List Cell → Cell) : DFrame :=
  let valueCols := df.cols.filter (fun c => !g.contains c && df.isNumericCol c)
  let kept := groupableRows g df.rows
  { idx := g
    cols := valueCols
    rows := (groupKeys g df.rows).map (fun k =>
      let members := kept.filter (fun r => keyTuple g r = k)
      g.zip k ++ valueCols.map (fun c => (c, fn (members.map (fun r => r.getCol c))))) }

/-- A pandas `Series` (the result of reducing a whole frame): index label to
value. -/
abbrev PSeries := List (String × Cell)

/-- Whole-frame reduction `df.<agg>(numeric_only=True)` without grouping: a Series over the numeric
columns. -/
def seriesAgg (df : DFrame) (fn : List Cell → Cell) : PSeries :=
  (df.cols.filter df.isNumericCol).map (fun c => (c, fn (df.colCells c)))

/-- The standalone Gini calculator `_gini(df, numeric_only)`: a Series mapping
each (numeric, when `numeric_only`) column to the Gini coefficient of its
values. -/
def giniSeries (df : DFrame) (numeric_only : Bool) : PSeries :=
  let cols := if numeric_only then df.cols.filter df.isNumericCol else df.cols
  cols.map (fun c => (c, giniCell (df.colCells c)))

/-- NaN replacement on a Series (`isnull().values.any()` check followed by
`fillna(0)`). -/
def seriesNanFix (s : PSeries) : PSeries :=
  if s.any (fun p => p.2.isNull) then
    s.map (fun p => (p.1, if p.2.isNull then Cell.num 0 else p.2))
  else s

/-- NaN replacement on a frame (`isnull().values.any()` check followed by
`fillna(0)`; the index of a grouped aggregate is not part of `values`). -/
def frameNanFix (df : DFrame) : DFrame :=
  if df.hasNull then df.fillna else df

/-- Conversion of a Series result back to a one-row frame with the implicit
identity column stamped: `to_frame().transpose()` followed by
`output_df["creator"] = "Overall"` (or `system_name`). -/
def seriesToFrame (s : PSeries) (by_creator : Bool) : DFrame :=
  let base : DFrame := { idx := [], cols := s.map (fun p => p.1), rows := [s] }
  if by_creator then base.setCol "creator" [Cell.str "Overall"]
  else base.setCol "system_name" [Cell.str "Overall"]

/-- Pandas `reset_index(inplace=True)`: a grouped aggregate's key columns become
ordinary leading columns; on a plain `RangeIndex` frame pandas instead inserts
the integer positions as a column named `index` (or `level_0` when `index` is
taken, raising when both are). -/
def resetIndex (df : DFrame) : Except String DFrame :=
  match df.idx with
  | [] =>
    if "index" ∈ df.cols then
      if "level_0" ∈ df.cols then .error "ValueError: cannot insert level_0, already exists"
      else .ok { idx := [], cols := "level_0" :: df.cols,
                 rows := df.rows.enum.map (fun p => ("level_0", Cell.num p.1) :: p.2) }
    else .ok { idx := [], cols := "index" :: df.cols,
               rows := df.rows.enum.map (fun p => ("index", Cell.num p.1) :: p.2) }
  | i => .ok { idx := [], cols := i ++ df.cols, rows := df.rows }

/-- Post-processing shared by every operation except `add_default` (whose
`continue` skips it), in source order: NaN replacement, then the
Series-vs-frame shape normalisation. -/
def postFrame (df : DFrame) : Except String DFrame :=
  resetIndex (frameNanFix df)

/-- Post-processing of a Series result: NaN replacement, then
`to_frame().transpose()` with the identity stamp (no `reset_index`). -/
def postSeries (s : PSeries) (by_creator : Bool) : DFrame :=
  seriesToFrame (seriesNanFix s) by_creator

/-- The effective group key of an operation: the configured `group_by`
prefixed with the implicit `system_name`/`creator` unless
`skip_group_system`. -/
def effGroupBy (operation : Operation) (by_creator : Bool) : List String :=
  if !operation.skip_group_system && !by_creator then "system_name" :: operation.group_by
  else if !operation.skip_group_system && by_creator then "creator" :: operation.group_by
  else operation.group_by

/-- Resolution of the operation's weight map against `_SPECIAL_WEIGHT_MAPS`
(a string names a registry entry; a missing name is a KeyError, raised at the
top of the loop body for every operation kind). -/
def resolveWeightMap (env : Env) (operation : Operation) :
    Except String (Option (List (String × ℚ))) :=
  match operation.weight_map with
  | none => .ok none
  | some (.inline m) => .ok (some m)
  | some (.named s) =>
    match (specialWeightMaps env).find? (fun p => p.1 = s) with
    | some p => .ok (some p.2)
    | none => .error ("KeyError: " ++ s)

/-- Weight translation `Series.map(dict)` over a weight column: string values translate through
the mapping, anything unmapped (including NaN and numbers, since the maps are
keyed by strings) becomes NaN. -/
def mapWeight (m : List (String × ℚ)) (cs : List Cell) : List Cell :=
  cs.map (fun c =>
    match c with
    | .str s => match m.find? (fun p => p.1 = s) with
      | some p => Cell.num p.2
      | none => Cell.null
    | _ => Cell.null)

/-- Elementwise product of the score column and the weight series; NaN
poisons, a string operand is a pandas TypeError. -/
def mulCells : List Cell → List Cell → Except String (List Cell)
  | [], _ => .ok []
  | _ :: _, [] => .ok []
  | a :: as, b :: bs => do
    let c ←
      match a, b with
      | .num x, .num y => Except.ok (Cell.num (x * y))
      | .num _, .null => Except.ok Cell.null
      | .null, .num _ => Except.ok Cell.null
      | .null, .null => Except.ok Cell.null
      | _, _ => Except.error "TypeError: non-numeric score or weight"
    let rest ← mulCells as bs
    .ok (c :: rest)

/-- The shared weighting of `multiply` / `weighted_sum`: fetch the weight
column, translate through the (truthy) weight map filling unmapped values
with 0, optionally sharpen via `exp(log(w + 1e-8) * multiplier)` renormalised
by the builtin `sum` (which propagates NaN), and multiply into `score`. -/
def applyWeight (env : Env) (df : DFrame) (operation : Operation)
    (wm : Option (List (String × ℚ))) : Except String DFrame := do
  let wcol ← match operation.weight with
    | some w => Except.ok w
    | none => Except.error "KeyError: weight"
  if wcol ∈ df.cols then
    let weight0 := df.colCells wcol
    let weight1 :=
      match wm with
      | some m => if m.isEmpty then weight0 else
          let mapped := mapWeight m weight0
          if mapped.any Cell.isNull then
            mapped.map (fun c => if c.isNull then Cell.num 0 else c)
          else mapped
      | none => weight0
    let weight2 ←
      match operation.weight_logit_multiplier with
      | none => Except.ok weight1
      | some mult =>
        if weight1.any Cell.isStr then
          Except.error "TypeError: log of non-numeric weight"
        else
          let e := weight1.map (fun c =>
            match c with
            | .num q => Cell.num (env.fexp (env.flog (q + 1 / 100000000) * mult))
            | _ => Cell.null)
          if e.any Cell.isNull then Except.ok (e.map (fun _ => Cell.null))
          else
            let s := (e.filterMap Cell.toNum?).sum
            Except.ok (e.map (fun c =>
              match c with
              | .num q => Cell.num (q / s)
              | c => c))
    if "score" ∈ df.cols then
      let prod ← mulCells (df.colCells "score") weight2
      .ok (df.setCol "score" prod)
    else .error "KeyError: score"
  else .error ("KeyError: " ++ wcol)

/-- The `add_default` operation: for every value of the named default set
absent from the target column, append a synthetic row carrying only that value
and score 0; `pd.concat(..., ignore_index=True)` unions the columns, so the
appended rows read NaN in every other column.  Its `continue` bypasses the
NaN replacement and the shape normalisation. -/
def addDefault (env : Env) (df : DFrame) (operation : Operation) :
    Except String DFrame := do
  let ds ← match operation.default_set with
    | some s => Except.ok s
    | none => Except.error "KeyError: default_set"
  let dset ← match (defaultSets env).find? (fun p => p.1 = ds) with
    | some p => Except.ok p.2
    | none => Except.error ("KeyError: " ++ ds)
  let col ← match operation.column with
    | some c => Except.ok c
    | none => Except.error "KeyError: column"
  if col ∈ df.cols then
    let languages := dset.filter (fun lang => !(df.colCells col).any (fun c => c.eqStr lang))
    .ok { idx := []
          cols := df.cols ++ (if "score" ∈ df.cols then [] else ["score"])
          rows := df.rows ++ languages.map (fun lang =>
            [(col, Cell.str lang), ("score", Cell.num 0)]) }
  else .error ("KeyError: " ++ col)

/-- The `subtract` operation: `score ↦ num - score` (NaN propagates, a string
score is a TypeError). -/
def subtractScores (n : ℚ) : List Cell → Except String (List Cell)
  | [] => .ok []
  | c :: cs => do
    let c' ←
      match c with
      | .num q => Except.ok (Cell.num (n - q))
      | .null => Except.ok Cell.null
      | _ => Except.error "TypeError: non-numeric score"
    let rest ← subtractScores n cs
    .ok (c' :: rest)

/-- One iteration of `aggregate_view`'s operation loop on the current working
frame.  Note the source bug in the `gini` arm: with a non-empty group key the
frame has already been replaced by `output_df.groupby(group_by)` when `_gini`
receives it, and `DataFrameGroupBy` has no `select_dtypes`, so the call
raises AttributeError despite the "skipping grouping" warning. -/
def stepOp (env : Env) (df : DFrame) (operation : Operation) (by_creator : Bool) :
    Except String DFrame := do
  let group_by := effGroupBy operation by_creator
  let weight_map ← resolveWeightMap env operation
  let op := operation.op
  if op = "mean" ∨ op = "sum" ∨ op = "max" ∨ op = "min" ∨ op = "gini" then
    if group_by.isEmpty then
      if op = "gini" then .ok (postSeries (giniSeries df true) by_creator)
      else .ok (postSeries (seriesAgg df (reduceFn op)) by_creator)
    else
      if group_by.all (fun c => (df.idx ++ df.cols).contains c) then
        if op = "gini" then
          .error "AttributeError: DataFrameGroupBy object has no attribute select_dtypes"
        else postFrame (groupAgg df group_by (reduceFn op))
      else .error "KeyError: groupby column not found"
  else if op = "multiply" ∨ op = "weighted_sum" then do
    let df1 ← applyWeight env df operation weight_map
    if op = "weighted_sum" then
      if group_by.isEmpty then .ok (postSeries (seriesAgg df1 aggSum) by_creator)
      else
        if group_by.all (fun c => (df1.idx ++ df1.cols).contains c) then
          postFrame (groupAgg df1 group_by aggSum)
        else .error "KeyError: groupby column not found"
    else postFrame df1
  else if op = "add_default" then
    addDefault env df operation
  else if op = "subtract" then do
    let n ← match operation.num with
      | some q => Except.ok q
      | none => Except.error "KeyError: num"
    if "score" ∈ df.cols then do
      let sc ← subtractScores n (df.colCells "score")
      postFrame (df.setCol "score" sc)
    else .error "KeyError: score"
  else .error ("Unsupported operation " ++ op ++ " in spec.")

/-- The final column pruning of `aggregate_view`:
`pd.concat([df.select_dtypes(["object"]), df["score"]], axis=1)`. -/
def finalSelect (df : DFrame) : Except String DFrame :=
  if "score" ∈ df.cols then
    .ok { df with cols := df.cols.filter df.isObjectCol ++ ["score"] }
  else .error "KeyError: score"

/-- The view aggregator `aggregate_view(input_df, view_spec, by_creator)`: empty input
short-circuits; otherwise the operations run in order on a copy of the input
and all numeric columns other than `score` are dropped at the end. -/
def aggregate_view (env : Env) (input_df : DFrame) (view_spec : BenchmarkViewConfig)
    (by_creator : Bool) : Except String DFrame :=
  if input_df.isEmpty then .ok input_df
  else do
    let out ← view_spec.operations.foldlM (fun acc op => stepOp env acc op by_creator) input_df
    finalSelect out

end Aggregate

section Store

/-- An object store for the frame-effect analysis of `aggregate_view`: the
caller's dataframes live in slots, and the function receives a slot reference.
The source's `output_df = input_df.copy()` allocates a fresh object; every
in-place write of the loop (`output_df[...] = ...`,
`reset_index(inplace=True)`) then targets the current working object, modelled
as the freshly allocated slot. -/
abbrev TableStore := List DFrame

/-- One loop iteration at the store level: the iteration's result is written
through the current working slot (`cur`), never any other slot; an error stops
the loop. -/
def storeStep (env : Env) (by_creator : Bool) (cur : Nat)
    (acc : TableStore × Except String Unit) (op : Operation) :
    TableStore × Except String Unit :=
  match acc with
  | (s, .error e) => (s, .error e)
  | (s, .ok _) =>
    match s.get? cur with
    | none => (s, .error "invalid working reference")
    | some dfc =>
      match stepOp env dfc op by_creator with
      | .error e => (s, .error e)
      | .ok t => (s.set cur t, .ok ())

/-- Store-level `aggregate_view`: reads the input slot, short-circuits on an
empty frame (returning the input object itself), otherwise copies the input
into a fresh slot and runs the operation loop and final column pruning there,
writing each intermediate result through the fresh slot only. -/
def aggregate_view_store (env : Env) (store : TableStore) (ref : Nat)
    (view_spec : BenchmarkViewConfig) (by_creator : Bool) :
    TableStore × Except String Nat :=
  match store.get? ref with
  | none => (store, .error "invalid table reference")
  | some input_df =>
    if input_df.isEmpty then (store, .ok ref)
    else
      let cur := store.length
      match view_spec.operations.foldl (storeStep env by_creator cur) (store ++ [input_df], .ok ()) with
      | (s, .error e) => (s, .error e)
      | (s, .ok _) =>
        match s.get? cur with
        | none => (s, .error "invalid working reference")
        | some dfc =>
          match finalSelect dfc with
          | .error e => (s, .error e)
          | .ok t => (s.set cur t, .ok cur)

end Store

section LongTable

/-- A dataset identity key `(dataset_name, sub_dataset, split)` as the Python
values the source compares. -/
abbrev DsKey := Cell × Cell × Cell

/-- Cell of an optional string (Python `None` becomes null). -/
def optCell : Option String → Cell
  | some s => .str s
  | none => .null

/-- The identity key of a dataset config entry:
`(x["dataset_name"], x.get("sub_dataset", None), x.get("split", "test"))`. -/
def DatasetCfg.dsKey (d : DatasetCfg) : DsKey :=
  ((d.get? "dataset_name").getD Cell.null,
   (d.get? "sub_dataset").getD Cell.null,
   (d.get? "split").getD (Cell.str "test"))

/-- The identity key of a system's dataset binding. -/
def SystemModel.dsKey (sys : SystemModel) : DsKey :=
  (.str sys.dataset.dataset_name, optCell sys.dataset.sub_dataset, .str sys.dataset.split)

/-- The slot index `dataset_to_id[key]`: the dict comprehension
`{key(x): i for i, x in enumerate(dataset_configs)}` keeps the **last** index
of a duplicated key. -/
def lastIdxOf : List DsKey → DsKey → Option Nat
  | [], _ => none
  | x :: xs, k =>
    match lastIdxOf xs k with
    | some j => some (j + 1)
    | none => if x = k then some 0 else none

/-- The resolved dataset configs: the benchmark's explicit `datasets` list
verbatim when set, otherwise the deduplicated dataset keys observed across the
systems. -/
def datasetConfigsOf (config : BenchmarkConfig) (systems : List SystemModel) :
    List DatasetCfg :=
  match config.datasets with
  | some ds => ds
  | none =>
    (dedupKeep (systems.map SystemModel.dsKey)).map (fun k =>
      { entries := [("dataset_name", k.1), ("sub_dataset", k.2.1), ("split", k.2.2)],
        metrics := none })

/-- When the benchmark has an explicit `datasets` list, systems are filtered
to those whose dataset key appears in it. -/
def filteredSystems (config : BenchmarkConfig) (systems : List SystemModel) :
    List SystemModel :=
  match config.datasets with
  | some _ =>
    let keys := (datasetConfigsOf config systems).map DatasetCfg.dsKey
    systems.filter (fun s => s.dsKey ∈ keys)
  | none => systems

/-- The per-system slot arrays `system_dataset_results`: one slot per dataset
config, filled (last write wins) with the system submitted for that slot;
system names appear in first-submission order. -/
abbrev SlotMap := List (String × List (Option SystemModel))

/-- Update the slot array of one system name. -/
def slotModify (m : SlotMap) (n : String)
    (f : List (Option SystemModel) → List (Option SystemModel)) : SlotMap :=
  m.map (fun p => if p.1 = n then (p.1, f p.2) else p)

/-- Fold step of `system_dataset_results`: create the system's slot array on
first sight, then write the submission into its dataset's slot. -/
def sysSlotsStep (keys : List DsKey) (m : SlotMap) (sys : SystemModel) : SlotMap :=
  let n := sys.system_name
  let m1 := if m.any (fun p => p.1 = n) then m
            else m ++ [(n, List.replicate keys.length none)]
  match lastIdxOf keys sys.dsKey with
  | some i => slotModify m1 n (fun sl => sl.set i (some sys))
  | none => m1

/-- Build `system_dataset_results` by folding over the (filtered) systems. -/
def sysSlots (keys : List DsKey) (systems : List SystemModel) : SlotMap :=
  systems.foldl (sysSlotsStep keys) []

/-- Predicate selecting the submissions that are written into slot `i` of the
system named `n`. -/
def slotPred (keys : List DsKey) (n : String) (i : Nat) (s : SystemModel) : Bool :=
  s.system_name == n && lastIdxOf keys s.dsKey == some i

/-- The submission that finally occupies slot `i` of the system named `n`:
the last matching one, since later submissions overwrite the slot. -/
def lastSubmission (keys : List DsKey) (systems : List SystemModel) (n : String) (i : Nat) :
    Option SystemModel :=
  systems.reverse.find? (slotPred keys n i)

/-- The `system_to_creator` mapping: a dict comprehension over the systems, so the last
submission's creator wins. -/
def systemToCreator (systems : List SystemModel) (n : String) : Option String :=
  (systems.reverse.find? (fun s => s.system_name = n)).map (fun s => s.creator)

/-- The `exclude_keys` list: `["metrics"] + list(_SPECIAL_WEIGHT_MAPS.keys())`. -/
def EXCLUDE_KEYS : List String := ["metrics", "pop_weight", "ling_weight"]

/-- Dataset-config keys join the column set unless already present or
excluded. -/
def addDatasetKey (acc : List String) (k : String) : List String :=
  if k ∉ acc ∧ k ∉ EXCLUDE_KEYS then acc ++ [k] else acc

/-- Operation parameter keys join the column set when truthy (non-empty) and
neither present nor excluded. -/
def addOpKey (acc : List String) (k : String) : List String :=
  if k ≠ "" ∧ k ∉ acc ∧ k ∉ EXCLUDE_KEYS then acc ++ [k] else acc

/-- The operation parameter keys `[operation.get("weight")] + operation.get("group_by", [])`. -/
def opColKeys (operation : Operation) : List String :=
  (match operation.weight with
   | some w => [w]
   | none => []) ++ operation.group_by

/-- The long table's column set, in insertion order: the five identity
columns, then extra dataset-config keys, then view operation parameter keys,
then the metric columns. -/
def dfColumns (config : BenchmarkConfig) (dcfgs : List DatasetCfg) : List String :=
  let base := ["system_name", "dataset_name", "sub_dataset", "dataset_split", "creator"]
  let c1 := dcfgs.foldl (fun acc d => (d.entries.map (fun p => p.1)).foldl addDatasetKey acc) base
  let c2 := config.views.foldl
    (fun acc v => v.operations.foldl (fun a op => (opColKeys op).foldl addOpKey a) acc) c1
  ["metric", "metric_weight", "score"].foldl (fun a k => if k ∈ a then a else a ++ [k]) c2

/-- The effective metric list `dataset_config.get("metrics", benchmark_config.metrics)`. -/
def effMetrics (config : BenchmarkConfig) (d : DatasetCfg) : Option (List BenchmarkMetric) :=
  d.metrics.orElse (fun _ => config.metrics)

/-- All values recorded for a metric name across the evaluation levels of a
system's results. -/
def matchingResults (sys : SystemModel) (mname : String) : List ℚ :=
  sys.results.flatMap (fun lv => lv.2.filterMap (fun kv =>
    if kv.1 = mname then some kv.2 else none))

/-- The score emitted for a system submitted for the dataset:
`performance if performance else (dataset_metric.get("default") or 0.0)` with
`performance = max(matching_results)` when any value matched — note the Python
truthiness: a maximum of exactly 0 also falls back to the default. -/
def resolveScorePresent (sys : SystemModel) (metric : BenchmarkMetric) : ℚ :=
  match (matchingResults sys metric.name).max? with
  | some p => if p = 0 then pyOr metric.default 0 else p
  | none => pyOr metric.default 0

/-- The fallback chain filling one output column of a row: the row context
(`column_dict`) first, then the source's `elif` ladder, then null with a
warning. -/
def rowCellFor (columnDict : List (String × Cell)) (meta : DatasetMeta) (k : String) : Cell :=
  match dictGet columnDict k with
  | some c => c
  | none =>
    if k = "sub_dataset" then Cell.null
    else if k = "dataset_split" then Cell.str "test"
    else if k = "source_language" then
      match meta.languages.head? with
      | some l => Cell.str l
      | none => Cell.str "eng"
    else if k = "target_language" then
      match meta.languages.getLast? with
      | some l => Cell.str l
      | none => Cell.str "eng"
    else Cell.null

/-- One long-table row for a (system, dataset config, metric) triple. -/
def mkRow (cols : List String) (d : DatasetCfg) (meta : DatasetMeta) (sysName : String)
    (creator : String) (score : ℚ) (metric : BenchmarkMetric) (nMetrics : Nat) : Row :=
  let columnDict :=
    upsert (upsert (upsert (upsert (upsert d.entries
      "system_name" (Cell.str sysName))
      "metric" (Cell.str metric.name))
      "metric_weight" (Cell.num (metric.weight.getD (1 / (nMetrics : ℚ)))))
      "creator" (Cell.str creator))
      "score" (Cell.num score)
  cols.map (fun k => (k, rowCellFor columnDict meta k))

/-- Three-way zip (`zip(dataset_configs, dataset_metadatas, systems)`). -/
def zip3 : List α → List β → List γ → List (α × β × γ)
  | a :: as, b :: bs, c :: cs => (a, b, c) :: zip3 as bs cs
  | _, _, _ => []

/-- The long-table builder `generate_dataframe_from_sys_infos`.  The source
raises while building the first system's rows when a dataset with resolved
metadata has neither local nor global metrics; since a raise discards the
partial frame, it is modelled as a pre-check with the same observable
behaviour. -/
def generate_dataframe_from_sys_infos (env : Env) (config : BenchmarkConfig)
    (systemsIn : List SystemModel) : Except String DFrame :=
  let dcfgs := datasetConfigsOf config systemsIn
  let systems := filteredSystems config systemsIn
  let keys := dcfgs.map DatasetCfg.dsKey
  let metas := dcfgs.map (fun d =>
    env.findDataset ((d.get? "dataset_name").getD Cell.null)
      ((d.get? "sub_dataset").getD Cell.null))
  let slots := sysSlots keys systems
  let cols := dfColumns config dcfgs
  if !slots.isEmpty &&
      (dcfgs.zip metas).any (fun p => p.2.isSome && (effMetrics config p.1).isNone) then
    .error "metrics must be specified either on a global or local level"
  else
    .ok { idx := [], cols := cols,
          rows := slots.flatMap (fun p =>
            (zip3 dcfgs metas p.2).flatMap (fun t =>
              match t.2.1 with
              | none => []
              | some meta =>
                let mets := (effMetrics config t.1).getD []
                mets.map (fun metric =>
                  match t.2.2 with
                  | some sys =>
                    mkRow cols t.1 meta p.1 sys.creator
                      (resolveScorePresent sys metric) metric mets.length
                  | none =>
                    mkRow cols t.1 meta p.1 ((systemToCreator systems p.1).getD "")
                      (pyOr metric.default 0) metric mets.length))) }

end LongTable

section Plots

/-- The view-table generator `generate_view_dataframes`: one aggregated table per view, then the
literal `("Original", orig_df)` entry. -/
def generate_view_dataframes (env : Env) (config : BenchmarkConfig) (orig_df : DFrame)
    (by_creator : Bool) : Except String (List (String × DFrame)) := do
  let vdfs ← config.views.mapM (fun v => do
    let d ← aggregate_view env orig_df v by_creator
    pure (v.name, d))
  pure (vdfs ++ [("Original", orig_df)])

/-- The per-date maximum `v.max()["score"]`: the column-wise maximum picked at `score` (skipna, NaN
for an all-NaN column; a missing `score` column is a KeyError). -/
def vMaxScore (df : DFrame) : Except String Cell :=
  if "score" ∈ df.cols then .ok (aggMax (df.colCells "score")) else .error "KeyError: score"

/-- The last recorded point `json_dict[k][-1]` of a series, if any. -/
def lastPoint : List (String × Cell) → Option (String × Cell)
  | [] => none
  | [p] => some p
  | _ :: rest => lastPoint rest

/-- One recording step of the trend loop: mode `all` always appends, mode
`increase` appends when the series is empty or the new maximum strictly
exceeds the last recorded value; any other mode string appends nothing. -/
def trendStep (mode : String) (acc : List (String × Cell)) (date : String) (v : Cell) :
    List (String × Cell) :=
  if mode = "all" then acc ++ [(date, v)]
  else if mode = "increase" then
    match lastPoint acc with
    | none => acc ++ [(date, v)]
    | some last => if Cell.ltNum last.2 v then acc ++ [(date, v)] else acc
  else acc

/-- The trend mode `k.trend if k.trend else "increase"` (an unset or empty trend string means
`increase`). -/
def trendModeOf (v : BenchmarkViewConfig) : String :=
  match v.trend with
  | some t => if t = "" then "increase" else t
  | none => "increase"

/-- The `plot_dict` of `generate_plots`: each view's trend mode, then the
literal `"Original" ↦ "original"` entry. -/
def plotModes (config : BenchmarkConfig) : List (String × String) :=
  upsert (buildDict (config.views.map (fun k => (k.name, trendModeOf k)))) "Original" "original"

/-- The initial `json_dict`: an empty series per view plus the `"Original"`
and `"times"` keys. -/
def jsonInit (config : BenchmarkConfig) : List (String × List (String × Cell)) :=
  upsert (upsert (buildDict (config.views.map
    (fun k => (k.name, ([] : List (String × Cell)))))) "Original" []) "times" []

/-- The distinct submission dates `sorted(list({x.created_at.date() for x in sys_infos}))`. -/
def uniqueDates (sys_infos : List SystemModel) : List Nat :=
  sortBy (fun a b => a ≤ b) (dedupKeep (sys_infos.map (fun s => s.created_at)))

/-- The series mapping under construction: view name to recorded points. -/
abbrev PlotJson := List (String × List (String × Cell))

/-- The body of `generate_plots`' inner loop (`for k, v in system_dfs`): look
up the view's trend mode and record (or not) the date's maximum score. -/
def plotInnerStep (config : BenchmarkConfig) (date : String)
    (json : PlotJson) (kv : String × DFrame) : Except String PlotJson := do
  let mode := (dictGet (plotModes config) kv.1).getD ""
  if mode = "all" ∨ mode = "increase" then do
    let m ← vMaxScore kv.2
    pure (upsert json kv.1 (trendStep mode ((dictGet json kv.1).getD []) date m))
  else pure json

/-- The body of `generate_plots`' date loop: filter the systems submitted on
or before the date, rebuild the long table and every view table, and record
one point per entry. -/
def plotDateStep (env : Env) (config : BenchmarkConfig) (sys_infos : List SystemModel)
    (json : PlotJson) (date : Nat) : Except String PlotJson := do
  let systems := sys_infos.filter (fun s => s.created_at ≤ date)
  let orig_df ← generate_dataframe_from_sys_infos env config systems
  let system_dfs ← generate_view_dataframes env config orig_df false
  system_dfs.foldlM (plotInnerStep config (toString date)) json

/-- The cache-miss computation of `generate_plots` (the benchmark-config
lookup, the read-through file cache and the JSON serialisation are I/O wrappers
around this core): an abstract benchmark yields the empty mapping; otherwise
for each distinct submission date in ascending order the long table and every
view table are rebuilt from the systems submitted on or before that date, and
one point per view is recorded according to its trend mode. -/
def computePlots (env : Env) (config : BenchmarkConfig) (sys_infos : List SystemModel) :
    Except String PlotJson :=
  if config.btype = some "abstract" then .ok []
  else
    (uniqueDates sys_infos).foldlM (plotDateStep env config sys_infos) (jsonInit config)

end Plots

section Pivot

/-- The composite column label of one row: `"score"` joined with `key=value`
tokens for every elem column holding a truthy (non-empty) string. -/
def _col_name (elem_names : List String) (df_entry : Row) : String :=
  String.intercalate "\n" ("score" ::
    elem_names.filterMap (fun elem =>
      match df_entry.getCol elem with
      | .str s => if s ≠ "" then some (elem ++ "=" ++ s) else none
      | _ => none))

/-- The rendered scoreboard (`BenchmarkTableData`). -/
structure BenchmarkTableData where
  name : String
  system_names : List Cell
  column_names : List String
  scores : List (List Cell)
  plot_y_values : List Cell
  plot_x_values : List String
deriving DecidableEq, Repr

/-- The row axis `sorted(list(set(input_df[col_name])))`. -/
def pivotRowIdx (input_df : DFrame) (col_name : String) : List Cell :=
  sortBy Cell.le (dedupKeep (input_df.colCells col_name))

/-- String "less or equal" used by `sorted` on labels. -/
def strLe (a b : String) : Bool :=
  Cell.pyStrLt a b || a == b

/-- The pivot formatter `dataframe_to_table`: rows = sorted distinct values of
`col_name`, columns = sorted distinct composite labels, a dense matrix filled
0.0-first with last-write-wins, rows finally sorted descending by the first
column. -/
def dataframe_to_table (view_name : String) (input_df : DFrame)
    (plot_dict : List (String × List (String × Cell))) (col_name : String) :
    Except String BenchmarkTableData :=
  if col_name ∈ input_df.cols then
    let elem_names := input_df.cols.filter (fun x => x ≠ "score" ∧ x ≠ col_name)
    let system_idx := pivotRowIdx input_df col_name
    let row_col_names := input_df.rows.map (_col_name elem_names)
    let column_idx := sortBy strLe (dedupKeep row_col_names)
    if system_idx.isEmpty || column_idx.isEmpty then
      .ok { name := view_name, system_names := [], column_names := [], scores := [[]],
            plot_y_values := [], plot_x_values := [] }
    else
      match dictGet plot_dict view_name with
      | none => .error ("KeyError: " ++ view_name)
      | some pts =>
        let init : List (Cell × List (String × Cell)) :=
          system_idx.map (fun r => (r, column_idx.map (fun c => (c, Cell.num 0))))
        let filled := (input_df.rows.zip row_col_names).foldl
          (fun m rc =>
            let row_id := rc.1.getCol col_name
            let val := rc.1.getCol "score"
            m.map (fun p => if p.1 = row_id then (p.1, upsert p.2 rc.2 val) else p))
          init
        let firstCol := column_idx.headD ""
        let rowVal := fun (p : Cell × List (String × Cell)) =>
          (dictGet p.2 firstCol).getD (Cell.num 0)
        let sorted := sortBy (fun a b => Cell.le (rowVal b) (rowVal a)) filled
        .ok { name := view_name
              system_names := sorted.map (fun p => p.1)
              column_names := column_idx
              scores := sorted.map (fun p =>
                column_idx.map (fun c => (dictGet p.2 c).getD (Cell.num 0)))
              plot_y_values := pts.map (fun pt => pt.2)
              plot_x_values := pts.map (fun pt => pt.1) }
  else .error ("KeyError: " ++ col_name)

end Pivot

section Fixtures

/-- A small concrete environment for evaluating the engine on closed inputs:
tiny registries, two known datasets, identity transcendentals. -/
def env0 : Env :=
  { popWeight := [("en", 2)], lingWeight := [], allLang := ["en", "fr"],
    findDataset := fun n _ =>
      match n with
      | Cell.str "d1" => some ⟨"d1", ["en"]⟩
      | Cell.str "d2" => some ⟨"d2", ["en", "fr"]⟩
      | _ => none,
    fexp := id, flog := id }

/-- The pivot example table: two systems, one metric, scores 1.0 and 2.0. -/
def pivotDF : DFrame :=
  { idx := [], cols := ["system", "metric", "score"],
    rows := [[("system", Cell.str "A"), ("metric", Cell.str "bleu"), ("score", Cell.num 1)],
             [("system", Cell.str "B"), ("metric", Cell.str "bleu"), ("score", Cell.num 2)]] }

/-- A one-row working table with a string identity column, a language column
and a numeric score. -/
def c3df : DFrame :=
  { idx := [], cols := ["system_name", "sub_dataset", "score"],
    rows := [[("system_name", Cell.str "sys1"), ("sub_dataset", Cell.str "en"),
              ("score", Cell.num 1)]] }

/-- An `add_default` operation padding `sub_dataset` from the `all_lang`
registry set. -/
def adOp : Operation :=
  { op := "add_default", default_set := some "all_lang", column := some "sub_dataset" }

/-- A `gini` operation with an explicit non-empty `group_by`. -/
def giniOp : Operation :=
  { op := "gini", group_by := ["sub_dataset"] }

/-- A `subtract` operation with constant 1. -/
def subOp : Operation :=
  { op := "subtract", num := some 1 }

/-- A view whose only operation is the `add_default` padding. -/
def viewAD : BenchmarkViewConfig :=
  { name := "v", operations := [adOp] }

/-- A metric named `m` with configured default 5. -/
def met0 : BenchmarkMetric :=
  { name := "m", default := some 5 }

/-- A benchmark over the single dataset `d1` with global metric `m`. -/
def cfg1 : BenchmarkConfig :=
  { datasets := some [{ entries := [("dataset_name", Cell.str "d1")] }],
    metrics := some [met0], views := [] }

/-- A system submitted for `d1` whose only recorded value for metric `m` is
exactly 0. -/
def sysA : SystemModel :=
  { system_name := "sA", creator := "alice",
    dataset := { dataset_name := "d1", split := "test" },
    results := [("example", [("m", 0)])], created_at := 3 }

/-- A benchmark listing the two datasets `d1` and `d2` with global metric
`m`. -/
def cfg2 : BenchmarkConfig :=
  { datasets := some [{ entries := [("dataset_name", Cell.str "d1")] },
                      { entries := [("dataset_name", Cell.str "d2")] }],
    metrics := some [met0], views := [] }

/-- A non-abstract benchmark with one `all`-trend mean view, used to drive the
plot generator. -/
def cfg3 : BenchmarkConfig :=
  { btype := some "benchmark",
    datasets := some [{ entries := [("dataset_name", Cell.str "d1")] }],
    metrics := some [met0],
    views := [{ name := "v1", trend := some "all", operations := [{ op := "mean" }] }] }

/-- A second system on `d1`, submitted a day later with score 7. -/
def sysB : SystemModel :=
  { system_name := "sB", creator := "bob",
    dataset := { dataset_name := "d1", split := "test" },
    results := [("example", [("m", 7)])], created_at := 4 }

/-- A later resubmission of system `sA` on `d1`, one day after `sysA`, with
score 7. -/
def sysA2 : SystemModel :=
  { system_name := "sA", creator := "alice",
    dataset := { dataset_name := "d1", split := "test" },
    results := [("example", [("m", 7)])], created_at := 4 }

/-- A view whose only operation subtracts scores from 1. -/
def viewSub : BenchmarkViewConfig :=
  { name := "v", operations := [subOp] }

end Fixtures

section Claims

/-- C9: on the example table with rows (A, bleu, 1.0) and (B, bleu, 2.0) and
row column `system`, the pivot formatter computes row labels `["A", "B"]`
before sorting, the single composite column label `"score\nmetric=bleu"`, and
after the descending sort by the first column the final row order
`["B", "A"]` with the matching score matrix. -/
theorem C9_pivot_example :
    pivotRowIdx pivotDF "system" = [Cell.str "A", Cell.str "B"] ∧
    dataframe_to_table "v" pivotDF [("v", [])] "system" =
      .ok { name := "v", system_names := [Cell.str "B", Cell.str "A"],
            column_names := ["score\nmetric=bleu"],
            scores := [[Cell.num 2], [Cell.num 1]],
            plot_y_values := [], plot_x_values := [] } := by decide

/-- C2: evaluating a `gini` operation whose effective group key is non-empty
(here the implicit `system_name` plus `group_by = ["sub_dataset"]`) on a
non-empty frame raises instead of warning-and-ignoring the grouping: the
working object has already been replaced by `output_df.groupby(group_by)` when
`_gini` receives it, and the grouped object has no `select_dtypes`. -/
theorem C2_gini_grouped_attribute_error :
    stepOp env0 c3df giniOp false =
      .error "AttributeError: DataFrameGroupBy object has no attribute select_dtypes" := rfl

/-- C3 counterexample: a view consisting of one `add_default` operation — whose
`continue` bypasses the NaN replacement — produces a final output table that
still contains NaN (the synthetic row's cells outside the target and score
columns), refuting the claim that after every operation, `add_default`
included, the working table is NaN-free. -/
theorem C3_add_default_nan_counterexample :
    (aggregate_view env0 c3df viewAD false).map DFrame.hasNull = .ok true := by decide

/-- C1 counterexample: system `sA` records the value 0 for metric `m` in one
evaluation level; the claim requires the emitted score to equal that maximum
(0), but the builder's Python truthiness test makes it fall back to the
configured default 5. -/
theorem C1_score_truthiness_counterexample :
    matchingResults sysA "m" = [0] ∧
    (generate_dataframe_from_sys_infos env0 cfg1 [sysA]).map
      (fun d => d.rows.map (fun r => r.getCol "score")) = .ok [Cell.num 5] := by decide

/-- C4 counterexample: with two distinct submission dates the claim requires
two points in the `"Original"` series, but the series stays empty: its mode is
the sentinel string `"original"`, which matches neither the `"all"` nor the
`"increase"` branch of the recording loop. -/
theorem C4_original_series_empty_counterexample :
    uniqueDates [sysA, sysA2] = [3, 4] ∧
    (computePlots env0 cfg3 [sysA, sysA2]).map (fun j => dictGet j "Original") =
      .ok (some []) := by decide

/-- C7 counterexample: a single-row table with the nonzero value 5 is claimed
to divide by zero and return a non-finite value, but the denominator is
`1² · mean = 5 ≠ 0` and the result is the finite 0 (the loop over `x[:-1]`
contributes nothing). -/
theorem C7_single_row_finite_counterexample :
    gini_den [(5 : ℚ)] = 5 ∧ gini_val [(5 : ℚ)] = 0 ∧ giniCell [Cell.num 5] = Cell.num 0 := by
  refine ⟨?_, ?_, ?_⟩
  · norm_num [gini_den, listMean]
  · norm_num [gini_val, gini_total, gini_total.tailSums, sortBy, List.insertionSort,
      gini_den, listMean]
  · have h1 : gini_den [(5 : ℚ)] = 5 := by norm_num [gini_den, listMean]
    have h2 : gini_val [(5 : ℚ)] = 0 := by
      norm_num [gini_val, gini_total, gini_total.tailSums, sortBy, List.insertionSort,
        gini_den, listMean]
    have h3 : List.filterMap Cell.toNum? [Cell.num 5] = [(5 : ℚ)] := by
      simp [Cell.toNum?]
    rw [giniCell, h3]
    norm_num [Cell.isNull, h1, h2]

/-- Helper: the last recorded point of a non-empty series is its final
element. -/
theorem lastPoint_concat (l : List (String × Cell)) (p : String × Cell) :
    lastPoint (l ++ [p]) = some p := by
  induction l with
  | nil => rfl
  | cons a l ih =>
    cases l with
    | nil => rfl
    | cons b l' => simpa [lastPoint] using ih

/-- C7 (amended): the Gini computation divides by zero — and so returns a
non-finite float — exactly on mean-zero columns (`gini_den = 0`); a single-row
column with a nonzero value instead has a nonzero denominator and returns the
finite value 0. -/
theorem C7_gini_degenerate_amended (x : List ℚ) (q : ℚ) (hq : q ≠ 0) :
    (listMean x = 0 → gini_den x = 0) ∧ gini_den [q] ≠ 0 ∧ gini_val [q] = 0 := by
  refine ⟨fun h => by simp [gini_den, h], ?_, ?_⟩
  · have h1 : listMean [q] = q := by simp [listMean]
    simp [gini_den, h1, hq]
  · have ht : gini_total [q] = 0 := by
      simp [gini_total, sortBy, List.insertionSort, List.orderedInsert, gini_total.tailSums]
    simp [gini_val, ht]

/-- Witness for C7: the all-zero column `[0]` has mean 0 and a vanishing
denominator, while the single-row column `[5]` is finite with value 0. -/
theorem C7_gini_degenerate_amended_witness :
    ((listMean [(0 : ℚ)] = 0 → gini_den [(0 : ℚ)] = 0) ∧
      gini_den [(5 : ℚ)] ≠ 0 ∧ gini_val [(5 : ℚ)] = 0) :=
  C7_gini_degenerate_amended [0] 5 (by norm_num)

/-- C6: in `increase` trend mode the first point is always recorded, a later
point is recorded exactly when its value strictly exceeds the last recorded
point, and the per-date max sequence `[0.5, 0.5, 0.7, 0.6, 0.9]` records
exactly the points scored `[0.5, 0.7, 0.9]`. -/
theorem C6_trend_increase_recording :
    (∀ (d : String) (v : Cell), trendStep "increase" [] d v = [(d, v)]) ∧
    (∀ (acc : List (String × Cell)) (p : String × Cell) (d : String) (v : Cell),
      trendStep "increase" (acc ++ [p]) d v =
        if Cell.ltNum p.2 v then (acc ++ [p]) ++ [(d, v)] else acc ++ [p]) ∧
    [("1", Cell.num (1/2)), ("2", Cell.num (1/2)), ("3", Cell.num (7/10)),
        ("4", Cell.num (3/5)), ("5", Cell.num (9/10))].foldl
      (fun a q => trendStep "increase" a q.1 q.2) [] =
      [("1", Cell.num (1/2)), ("3", Cell.num (7/10)), ("5", Cell.num (9/10))] := by
  refine ⟨fun d v => rfl, fun acc p d v => ?_, ?_⟩
  · simp [trendStep, lastPoint_concat]
  · have hia : ¬ ("increase" = "all") := by decide
    norm_num [trendStep, Cell.ltNum, lastPoint, hia]

/-- Helper: binding a successful `Except` computation runs the
continuation. -/
theorem except_bind_ok (a : α) (f : α → Except String β) :
    (Bind.bind (Except.ok a) f) = f a := rfl

/-- C8: a successful `add_default` leaves every existing row unchanged and
appends exactly the synthetic rows (target value, score 0) for the default-set
values absent from the target column, and it is idempotent: applying the same
operation again succeeds and returns the very same frame. -/
theorem C8_add_default_idempotent (env : Env) (df : DFrame) (op : Operation) (bc : Bool)
    (ds col : String) (dset : List String) (wm : Option (List (String × ℚ)))
    (hop : op.op = "add_default")
    (hds : op.default_set = some ds)
    (hset : dictGet (defaultSets env) ds = some dset)
    (hcol : op.column = some col)
    (hmem : col ∈ df.cols)
    (hwm : resolveWeightMap env op = .ok wm) :
    ∃ out, stepOp env df op bc = .ok out ∧
      out.rows = df.rows ++ (dset.filter (fun lang =>
        !(df.colCells col).any (fun c => c.eqStr lang))).map
        (fun lang => [(col, Cell.str lang), ("score", Cell.num 0)]) ∧
      stepOp env out op bc = .ok out := by
  obtain ⟨p, hfind, hp⟩ := Option.map_eq_some'.mp hset
  have hstep : ∀ d : DFrame, stepOp env d op bc = addDefault env d op := by
    intro d
    rw [stepOp, hwm]
    simp only [except_bind_ok]
    simp [hop]
  have had : addDefault env df op = .ok
      { idx := [], cols := df.cols ++ (if "score" ∈ df.cols then [] else ["score"]),
        rows := df.rows ++ (dset.filter (fun lang =>
          !(df.colCells col).any (fun c => c.eqStr lang))).map
          (fun lang => [(col, Cell.str lang), ("score", Cell.num 0)]) } := by
    rw [addDefault, hds]
    simp only [except_bind_ok]
    rw [hfind]
    simp only [except_bind_ok]
    rw [hcol, hp]
    simp only [except_bind_ok]
    simp [hmem]
  refine ⟨_, by rw [hstep, had], rfl, ?_⟩
  rw [hstep, addDefault, hds]
  simp only [except_bind_ok]
  rw [hfind]
  simp only [except_bind_ok]
  rw [hcol, hp]
  simp only [except_bind_ok]
  have hcolout : col ∈ df.cols ++ (if "score" ∈ df.cols then [] else ["score"]) :=
    List.mem_append_left _ hmem
  rw [if_pos hcolout]
  have hsc : "score" ∈ df.cols ++ (if "score" ∈ df.cols then [] else ["score"]) := by
    by_cases h : "score" ∈ df.cols
    · exact List.mem_append_left _ h
    · simp [h]
  have hfilter2 : dset.filter (fun lang =>
      !((⟨[], df.cols ++ (if "score" ∈ df.cols then [] else ["score"]),
          df.rows ++ (dset.filter (fun lang =>
            !(df.colCells col).any (fun c => c.eqStr lang))).map
            (fun lang => [(col, Cell.str lang), ("score", Cell.num 0)])⟩ :
        DFrame).colCells col).any (fun c => c.eqStr lang)) = [] := by
    rw [List.filter_eq_nil_iff]
    intro lang hlang
    suffices hx : ((⟨[], df.cols ++ (if "score" ∈ df.cols then [] else ["score"]),
          df.rows ++ (dset.filter (fun lang =>
            !(df.colCells col).any (fun c => c.eqStr lang))).map
            (fun lang => [(col, Cell.str lang), ("score", Cell.num 0)])⟩ :
        DFrame).colCells col).any (fun c => c.eqStr lang) = true by
      simp [hx]
    simp only [DFrame.colCells, List.map_append, List.any_append, Bool.or_eq_true]
    by_cases hc : (df.colCells col).any (fun c => c.eqStr lang) = true
    · left
      simpa [DFrame.colCells] using hc
    · right
      rw [List.any_eq_true]
      refine ⟨Cell.str lang, ?_, by simp [Cell.eqStr]⟩
      rw [List.mem_map]
      refine ⟨[(col, Cell.str lang), ("score", Cell.num 0)], ?_, by simp [Row.getCol]⟩
      rw [List.mem_map]
      have hc' : (df.colCells col).any (fun c => c.eqStr lang) = false := by
        simpa using hc
      refine ⟨lang, List.mem_filter.mpr ⟨hlang, ?_⟩, rfl⟩
      show (!(df.colCells col).any fun c => c.eqStr lang) = true
      rw [hc']
      rfl
  rw [hfilter2]
  simp [hsc]

/-- Witness for C8: the `all_lang` padding of `sub_dataset` on the concrete
one-row table succeeds, appends one row per missing language, and is a fixed
point of a second application. -/
theorem C8_add_default_idempotent_witness :
    adOp.op = "add_default" ∧
    (∃ out, stepOp env0 c3df adOp false = .ok out ∧
      out.rows = c3df.rows ++ ((["en", "fr"] : List String).filter (fun lang =>
        !(c3df.colCells "sub_dataset").any (fun c => c.eqStr lang))).map
        (fun lang => [("sub_dataset", Cell.str lang), ("score", Cell.num 0)]) ∧
      stepOp env0 out adOp false = .ok out) :=
  ⟨rfl, C8_add_default_idempotent env0 c3df adOp false "all_lang" "sub_dataset"
    ["en", "fr"] none rfl rfl rfl rfl (by decide) rfl⟩

/-- Helper: the operation-loop fold at store level only ever writes through
the current working slot `cur`, so every other slot is preserved. -/
theorem storeStep_fold_get (env : Env) (bc : Bool) (cur : Nat)
    (ops : List Operation) (s : TableStore) (r : Except String Unit) (ref : Nat)
    (h : ref ≠ cur) :
    ((ops.foldl (storeStep env bc cur) (s, r)).1).get? ref = s.get? ref := by
  induction ops generalizing s r with
  | nil => rfl
  | cons op ops ih =>
    rw [List.foldl_cons]
    rcases r with e | u
    · exact ih s (.error e)
    · show ((ops.foldl (storeStep env bc cur) (storeStep env bc cur (s, .ok u) op)).1).get? ref
        = s.get? ref
      rw [storeStep]
      cases hs : s.get? cur with
      | none =>
        dsimp only
        exact ih s _
      | some dfc =>
        dsimp only
        cases hst : stepOp env dfc op bc with
        | error e =>
          dsimp only
          exact ih s _
        | ok t =>
          dsimp only
          rw [ih (s.set cur t) _]
          exact List.get?_set_ne t s (Ne.symm h)

/-- C10: `aggregate_view` never mutates its input table.  At store level the
caller's slot is unchanged by the call, whether the view short-circuits on an
empty input, raises partway through its operations, or completes: the initial
copy goes to a fresh slot and every write targets that fresh slot. -/
theorem C10_aggregate_view_no_input_mutation (env : Env) (store : TableStore) (ref : Nat)
    (view_spec : BenchmarkViewConfig) (bc : Bool) (h : ref < store.length) :
    ((aggregate_view_store env store ref view_spec bc).1).get? ref = store.get? ref := by
  rw [aggregate_view_store]
  cases hs : store.get? ref with
  | none =>
    dsimp only
    exact hs
  | some input_df =>
    dsimp only
    by_cases he : input_df.isEmpty
    · rw [if_pos he]
      exact hs
    · rw [if_neg he]
      have hne : ref ≠ store.length := Nat.ne_of_lt h
      have hbase : ((store ++ [input_df]).get? ref) = store.get? ref :=
        List.get?_append h
      have hfold := storeStep_fold_get env bc store.length view_spec.operations
        (store ++ [input_df]) (.ok ()) ref hne
      cases hfl : (view_spec.operations.foldl (storeStep env bc store.length)
          (store ++ [input_df], Except.ok ())) with
      | mk s r =>
        rw [hfl] at hfold
        rcases r with e | u
        · dsimp only
          rw [hfold, hbase]
          exact hs
        · dsimp only
          cases hg : s.get? store.length with
          | none =>
            dsimp only
            rw [hfold, hbase]
            exact hs
          | some dfc =>
            dsimp only
            cases hfs : finalSelect dfc with
            | error e =>
              dsimp only
              rw [hfold, hbase]
              exact hs
            | ok t =>
              dsimp only
              rw [List.get?_set_ne t s (Ne.symm hne), hfold, hbase]
              exact hs

/-- Witness for C10: running the one-operation subtract view over a one-slot
store leaves the caller's slot holding exactly the original table. -/
theorem C10_aggregate_view_no_input_mutation_witness :
    0 < ([c3df] : TableStore).length ∧
    ((aggregate_view_store env0 [c3df] 0 viewSub false).1).get? 0 = some c3df :=
  ⟨by decide,
    (C10_aggregate_view_no_input_mutation env0 [c3df] 0 viewSub false (by decide)).trans rfl⟩



/-- Helper: label lookup on a cons row. -/
theorem getCol_cons (k : String) (v : Cell) (r : Row) (c : String) :
    Row.getCol ((k, v) :: r) c = if k = c then v else Row.getCol r c := rfl

/-- Helper: label lookup across an appended row. -/
theorem getCol_append (a b : Row) (c : String) :
    Row.getCol (a ++ b) c =
      if c ∈ a.map Prod.fst then Row.getCol a c else Row.getCol b c := by
  induction a with
  | nil => simp [Row.getCol]
  | cons p a ih =>
    rcases p with ⟨k, v⟩
    by_cases h : k = c
    · simp [Row.getCol, h]
    · have h' : ¬ c = k := fun hc => h hc.symm
      simp only [List.cons_append, getCol_cons, if_neg h, List.map_cons, List.mem_cons, h',
        false_or, ih]

/-- Helper: label lookup in a row materialised from a column list. -/
theorem getCol_mapPair (l : List String) (f : String → Cell) (c : String) :
    Row.getCol (l.map (fun x => (x, f x))) c = if c ∈ l then f c else Cell.null := by
  induction l with
  | nil => simp [Row.getCol]
  | cons x l ih =>
    by_cases h : x = c
    · simp [Row.getCol, h]
    · have h' : ¬ c = x := fun hc => h hc.symm
      simp [Row.getCol, h, h', ih]

/-- Helper: label lookup after a dict insert-or-replace. -/
theorem getCol_upsert (r : Row) (k : String) (v : Cell) (c : String) :
    Row.getCol (upsert r k v) c = if k = c then v else Row.getCol r c := by
  induction r with
  | nil => simp [upsert, Row.getCol]
  | cons p r ih =>
    rcases p with ⟨k', v'⟩
    by_cases h : k' = k
    · subst h
      by_cases hc : k' = c <;> simp [upsert, Row.getCol, hc]
    · by_cases hc : k' = c
      · subst hc
        have hkc : ¬ k = k' := fun hx => h hx.symm
        simp [upsert, Row.getCol, h, hkc]
      · simp [upsert, Row.getCol, h, hc, ih]

/-- Helper: a lookup of a present key in a null-free row is not null. -/
theorem getCol_nonnull_of_mem (s : Row) (c : String)
    (hall : ∀ p ∈ s, (p.2 : Cell).isNull = false) (hc : c ∈ s.map Prod.fst) :
    (Row.getCol s c).isNull = false := by
  induction s with
  | nil => simp at hc
  | cons p s ih =>
    rcases p with ⟨k, v⟩
    by_cases h : k = c
    · simpa [Row.getCol, h] using hall (k, v) (List.mem_cons_self _ _)
    · have h' : ¬ c = k := fun hx => h hx.symm
      rw [getCol_cons, if_neg h]
      refine ih (fun p hp => hall p (List.mem_cons_of_mem _ hp)) ?_
      simpa [h'] using hc

/-- Helper: sorting does not change membership. -/
theorem mem_sortBy (le : α → α → Bool) (l : List α) (x : α) :
    x ∈ sortBy le l ↔ x ∈ l :=
  (List.perm_insertionSort _ l).mem_iff

/-- Helper: deduplication does not change membership. -/
theorem mem_dedupKeep [DecidableEq α] (l : List α) (x : α) :
    x ∈ dedupKeep l ↔ x ∈ l := by
  have main : ∀ (l acc : List α), x ∈ l.foldl
      (fun acc x => if x ∈ acc then acc else acc ++ [x]) acc ↔ x ∈ acc ∨ x ∈ l := by
    intro l
    induction l with
    | nil => simp
    | cons a l ih =>
      intro acc
      rw [List.foldl_cons, ih]
      by_cases h : a ∈ acc
      · simp only [if_pos h, List.mem_cons]
        constructor
        · rintro (h1 | h1)
          exacts [Or.inl h1, Or.inr (Or.inr h1)]
        · rintro (h1 | h1 | h1)
          exacts [Or.inl h1, Or.inl (h1 ▸ h), Or.inr h1]
      · simp only [if_neg h, List.mem_append, List.mem_cons, List.not_mem_nil, or_false]
        tauto
  rw [dedupKeep, main]
  simp

/-- Helper: a frame is NaN-free exactly when every value cell is non-null. -/
theorem hasNull_eq_false_iff (df : DFrame) :
    df.hasNull = false ↔
      ∀ c ∈ df.cols, ∀ r ∈ df.rows, (Row.getCol r c).isNull = false := by
  rw [DFrame.hasNull, List.any_eq_false]
  constructor
  · intro h c hc r hr
    have h1 := h c hc
    rw [Bool.not_eq_true, List.any_eq_false] at h1
    have h2 := h1 (Row.getCol r c) (List.mem_map.mpr ⟨r, hr, rfl⟩)
    simpa using h2
  · intro h c hc
    rw [Bool.not_eq_true, List.any_eq_false]
    intro x hx
    obtain ⟨r, hr, rfl⟩ := List.mem_map.mp hx
    simp [h c hc r hr]

/-- Helper: the Series NaN replacement leaves no null values. -/
theorem seriesNanFix_nonnull (s : PSeries) :
    ∀ p ∈ seriesNanFix s, (p.2 : Cell).isNull = false := by
  intro p hp
  rw [seriesNanFix] at hp
  by_cases h : s.any (fun p => p.2.isNull) = true
  · rw [if_pos h] at hp
    obtain ⟨q, hq, rfl⟩ := List.mem_map.mp hp
    show (if q.2.isNull = true then Cell.num 0 else q.2).isNull = false
    by_cases hn : (q.2 : Cell).isNull = true
    · rw [if_pos hn]
      rfl
    · simp only [Bool.not_eq_true] at hn
      rw [if_neg (by simp [hn])]
      exact hn
  · rw [if_neg h] at hp
    rw [Bool.not_eq_true, List.any_eq_false] at h
    have h1 := h p hp
    simpa using h1

/-- Helper: stamping the identity column on a null-free one-row frame keeps it
NaN-free. -/
theorem hasNull_setCol_single (s' : PSeries) (key : String)
    (hnn : ∀ p ∈ s', (p.2 : Cell).isNull = false) :
    (DFrame.setCol ⟨[], s'.map (fun p => p.1), [s']⟩ key [Cell.str "Overall"]).hasNull
      = false := by
  rw [hasNull_eq_false_iff]
  intro c hc r hr
  have hrow : r = upsert s' key (Cell.str "Overall") := by
    simpa [DFrame.setCol] using hr
  subst hrow
  rw [getCol_upsert]
  by_cases hk : key = c
  · simp [hk, Cell.isNull]
  · rw [if_neg hk]
    apply getCol_nonnull_of_mem s' c hnn
    simp only [DFrame.setCol] at hc
    by_cases hkm : key ∈ (⟨[], s'.map (fun p => p.1), [s']⟩ : DFrame).cols
    · rw [if_pos hkm] at hc
      simpa using hc
    · rw [if_neg hkm] at hc
      rcases List.mem_append.mp hc with h1 | h1
      · simpa using h1
      · exact absurd (List.mem_singleton.mp h1).symm hk

/-- Helper: the Series post-processing always returns a NaN-free frame. -/
theorem hasNull_postSeries (s : PSeries) (bc : Bool) :
    (postSeries s bc).hasNull = false := by
  rw [postSeries, seriesToFrame]
  cases bc
  · show (DFrame.setCol _ "system_name" [Cell.str "Overall"]).hasNull = false
    exact hasNull_setCol_single (seriesNanFix s) "system_name" (seriesNanFix_nonnull s)
  · show (DFrame.setCol _ "creator" [Cell.str "Overall"]).hasNull = false
    exact hasNull_setCol_single (seriesNanFix s) "creator" (seriesNanFix_nonnull s)



/-- Helper: a group key tuple has one cell per key column. -/
theorem keyTuple_length (g : List String) (r : Row) : (keyTuple g r).length = g.length := by
  simp [keyTuple]

/-- Helper: looking up a key column in a zipped key row lands in the key
tuple. -/
theorem getCol_zip_mem : ∀ (g : List String) (k : List Cell) (rest : Row) (c : String),
    c ∈ g → k.length = g.length → Row.getCol (g.zip k ++ rest) c ∈ k := by
  intro g
  induction g with
  | nil =>
    intro k rest c hc
    simp at hc
  | cons x g ih =>
    intro k rest c hc hl
    cases k with
    | nil => simp at hl
    | cons y k =>
      by_cases h : x = c
      · simp [Row.getCol, h]
      · rcases List.mem_cons.mp hc with h1 | h1
        · exact absurd h1.symm h
        · simp only [List.zip_cons_cons, List.cons_append, getCol_cons, if_neg h]
          exact List.mem_cons_of_mem _ (ih k rest c h1 (by simpa using hl))

/-- Helper: every group key has full length and no null cells (pandas drops
null keys). -/
theorem groupKeys_shape (g : List String) (rows : List Row) (k : List Cell)
    (hk : k ∈ groupKeys g rows) :
    k.length = g.length ∧ ∀ x ∈ k, (x : Cell).isNull = false := by
  rw [groupKeys, mem_sortBy, mem_dedupKeep] at hk
  obtain ⟨r0, hr0, rfl⟩ := List.mem_map.mp hk
  rw [groupableRows, List.mem_filter] at hr0
  refine ⟨keyTuple_length g r0, ?_⟩
  intro x hx
  have h2 := hr0.2
  rw [Bool.not_eq_eq_eq_not, Bool.not_true, List.any_eq_false] at h2
  have h3 := h2 x hx
  simpa using h3

/-- Helper: grouped-aggregate rows carry non-null key cells. -/
theorem groupAgg_rows_shape (df : DFrame) (g : List String) (fn : List Cell → Cell) :
    ∀ r ∈ (groupAgg df g fn).rows, ∀ c ∈ g, (Row.getCol r c).isNull = false := by
  intro r hr c hc
  rw [groupAgg] at hr
  simp only [List.mem_map] at hr
  obtain ⟨k, hk, rfl⟩ := hr
  obtain ⟨hlen, hnn⟩ := groupKeys_shape g df.rows k hk
  exact hnn _ (getCol_zip_mem g k _ c hc hlen)

/-- Helper: after `fillna` every value cell is non-null. -/
theorem fillna_vals (df : DFrame)
    (hdisj : ∀ c ∈ df.cols, c ∉ df.idx) :
    ∀ r ∈ df.fillna.rows, ∀ c ∈ df.cols, (Row.getCol r c).isNull = false := by
  intro r hr c hc
  rw [DFrame.fillna] at hr
  simp only [List.mem_map] at hr
  obtain ⟨r0, hr0, rfl⟩ := hr
  rw [getCol_append]
  have hmf : (df.idx.map (fun c => (c, Row.getCol r0 c))).map Prod.fst = df.idx := by
    simp [List.map_map, Function.comp_def]
  rw [hmf, if_neg (hdisj c hc)]
  rw [getCol_mapPair df.cols (fun c => if (Row.getCol r0 c).isNull = true then Cell.num 0
    else Row.getCol r0 c) c, if_pos hc]
  by_cases hn : (Row.getCol r0 c).isNull = true
  · rw [if_pos hn]
    rfl
  · simp only [Bool.not_eq_true] at hn
    rw [if_neg (by simp [hn])]
    exact hn

/-- Helper: `fillna` preserves the (non-null) index cells. -/
theorem fillna_keys (df : DFrame)
    (hkeys : ∀ r ∈ df.rows, ∀ c ∈ df.idx, (Row.getCol r c).isNull = false) :
    ∀ r ∈ df.fillna.rows, ∀ c ∈ df.idx, (Row.getCol r c).isNull = false := by
  intro r hr c hc
  rw [DFrame.fillna] at hr
  simp only [List.mem_map] at hr
  obtain ⟨r0, hr0, rfl⟩ := hr
  rw [getCol_append]
  have hmf : (df.idx.map (fun c => (c, Row.getCol r0 c))).map Prod.fst = df.idx := by
    simp [List.map_map, Function.comp_def]
  rw [hmf, if_pos hc, getCol_mapPair df.idx (fun c => Row.getCol r0 c) c, if_pos hc]
  exact hkeys r0 hr0 c hc

/-- Helper: the frame NaN replacement preserves shape, nullifies no keys and
leaves no null value cells. -/
theorem frameNanFix_facts (df : DFrame)
    (hdisj : ∀ c ∈ df.cols, c ∉ df.idx)
    (hkeys : ∀ r ∈ df.rows, ∀ c ∈ df.idx, (Row.getCol r c).isNull = false) :
    (frameNanFix df).idx = df.idx ∧ (frameNanFix df).cols = df.cols ∧
    (∀ r ∈ (frameNanFix df).rows, ∀ c ∈ df.cols, (Row.getCol r c).isNull = false) ∧
    (∀ r ∈ (frameNanFix df).rows, ∀ c ∈ df.idx, (Row.getCol r c).isNull = false) := by
  rw [frameNanFix]
  by_cases h : df.hasNull = true
  · rw [if_pos h]
    exact ⟨rfl, rfl, fillna_vals df hdisj, fillna_keys df hkeys⟩
  · rw [if_neg h]
    simp only [Bool.not_eq_true] at h
    rw [hasNull_eq_false_iff] at h
    exact ⟨rfl, rfl, fun r hr c hc => h c hc r hr, hkeys⟩

/-- Helper: prepending the integer position column of `reset_index` keeps a
null-free frame null-free. -/
theorem hasNull_enumCons (name : String) (cols2 : List String) (rows2 : List Row)
    (hv : ∀ r ∈ rows2, ∀ c ∈ cols2, (Row.getCol r c).isNull = false) :
    (⟨[], name :: cols2,
      rows2.enum.map (fun p => (name, Cell.num p.1) :: p.2)⟩ : DFrame).hasNull = false := by
  rw [hasNull_eq_false_iff]
  intro c hc r hr
  simp only [List.mem_map] at hr
  obtain ⟨p, hp, rfl⟩ := hr
  rw [getCol_cons]
  by_cases h : name = c
  · rw [if_pos h]
    rfl
  · rw [if_neg h]
    have hc2 : c ∈ cols2 := by
      rcases List.mem_cons.mp hc with h1 | h1
      · exact absurd h1.symm h
      · exact h1
    have hp2 : p.2 ∈ rows2 := by
      have := List.enum_map_snd rows2
      exact this ▸ List.mem_map.mpr ⟨p, hp, rfl⟩
    exact hv p.2 hp2 c hc2

/-- Helper: flattening a grouped index into columns keeps a null-free frame
null-free. -/
theorem hasNull_idxFlat (is cols2 : List String) (rows2 : List Row)
    (hv : ∀ r ∈ rows2, ∀ c ∈ cols2, (Row.getCol r c).isNull = false)
    (hk : ∀ r ∈ rows2, ∀ c ∈ is, (Row.getCol r c).isNull = false) :
    (⟨[], is ++ cols2, rows2⟩ : DFrame).hasNull = false := by
  rw [hasNull_eq_false_iff]
  intro c hc r hr
  rcases List.mem_append.mp hc with h1 | h1
  · exact hk r hr c h1
  · exact hv r hr c h1

theorem hasNull_postFrame (df : DFrame)
    (hdisj : ∀ c ∈ df.cols, c ∉ df.idx)
    (hkeys : ∀ r ∈ df.rows, ∀ c ∈ df.idx, (Row.getCol r c).isNull = false)
    (out : DFrame) (h : postFrame df = .ok out) :
    out.hasNull = false := by
  obtain ⟨hidx, hcols, hvals, hkeys2⟩ := frameNanFix_facts df hdisj hkeys
  rw [postFrame, resetIndex] at h
  rcases hI : (frameNanFix df).idx with _ | ⟨i, is⟩
  · rw [hI] at h
    dsimp only at h
    by_cases hix : "index" ∈ (frameNanFix df).cols
    · rw [if_pos hix] at h
      by_cases hlv : "level_0" ∈ (frameNanFix df).cols
      · rw [if_pos hlv] at h
        exact absurd h (by simp)
      · rw [if_neg hlv] at h
        have hout := (Except.ok.inj h).symm
        subst hout
        refine hasNull_enumCons "level_0" (frameNanFix df).cols (frameNanFix df).rows ?_
        intro r hr c hc
        exact hvals r hr c (hcols ▸ hc)
    · rw [if_neg hix] at h
      have hout := (Except.ok.inj h).symm
      subst hout
      refine hasNull_enumCons "index" (frameNanFix df).cols (frameNanFix df).rows ?_
      intro r hr c hc
      exact hvals r hr c (hcols ▸ hc)
  · rw [hI] at h
    dsimp only at h
    have hout := (Except.ok.inj h).symm
    subst hout
    refine hasNull_idxFlat (i :: is) (frameNanFix df).cols (frameNanFix df).rows ?_ ?_
    · intro r hr c hc
      exact hvals r hr c (hcols ▸ hc)
    · intro r hr c hc
      refine hkeys2 r hr c ?_
      rw [← hidx, hI]
      exact hc



/-- Helper: inversion of a successful `Except` bind. -/
theorem except_bind_eq_ok {x : Except String α} {f : α → Except String β} {b : β} :
    (Bind.bind x f) = .ok b ↔ ∃ a, x = .ok a ∧ f a = .ok b := by
  cases x with
  | error e =>
    constructor
    · intro h
      exact absurd h (by simp [Bind.bind, Except.bind])
    · rintro ⟨a, ha, _⟩
      exact absurd ha (by simp)
  | ok a =>
    constructor
    · intro h
      exact ⟨a, rfl, h⟩
    · rintro ⟨a', ha, hf⟩
      cases ha
      exact hf

/-- Helper: a successful weighting step only replaces the score column of the
working frame. -/
theorem applyWeight_ok_shape (env : Env) (df : DFrame) (op : Operation)
    (wm : Option (List (String × ℚ))) (d : DFrame)
    (h : applyWeight env df op wm = .ok d) :
    ∃ cells, d = df.setCol "score" cells := by
  rw [applyWeight] at h
  cases hw : op.weight with
  | none =>
    rw [hw] at h
    exact absurd h (by simp [Bind.bind, Except.bind])
  | some wcol =>
    rw [hw] at h
    dsimp only at h
    rw [except_bind_ok] at h
    repeat'
      first
      | (rw [except_bind_eq_ok] at h; obtain ⟨_, _, h⟩ := h)
      | split at h
      | dsimp only at h
    all_goals
      first
      | exact ⟨_, (Except.ok.inj h).symm⟩
      | exact absurd h (by simp [Bind.bind, Except.bind])



/-- Helper: the value columns of a grouped aggregate are disjoint from its
key index. -/
theorem groupAgg_cols_disj (df : DFrame) (g : List String) (fn : List Cell → Cell) :
    ∀ c ∈ (groupAgg df g fn).cols, c ∉ (groupAgg df g fn).idx := by
  intro c hc hmem
  have hc2 : c ∈ df.cols.filter (fun c => !g.contains c && df.isNumericCol c) := hc
  have hmem2 : c ∈ g := hmem
  have hp := (List.mem_filter.mp hc2).2
  rw [Bool.and_eq_true] at hp
  have h1 := hp.1
  simp only [List.contains] at h1
  rw [List.elem_eq_true_of_mem hmem2] at h1
  simp at h1

/-- C3 (amended): after every operation other than `add_default` that
`aggregate_view` completes on a working frame (always a RangeIndex frame at
the loop boundary), the resulting frame contains no NaN: the post-processing
replaces any NaN with 0 before the next operation runs.  (`add_default`,
excluded here, skips that replacement — see the counterexample.) -/
theorem C3_nan_replaced_after_non_default_ops (env : Env) (df : DFrame) (op : Operation) (bc : Bool)
    (out : DFrame) (hidx : df.idx = []) (hop : op.op ≠ "add_default")
    (h : stepOp env df op bc = .ok out) :
    out.hasNull = false := by
  rw [stepOp] at h
  dsimp only at h
  rw [except_bind_eq_ok] at h
  obtain ⟨wmr, hwm, h⟩ := h
  by_cases h1 : (op.op = "mean" ∨ op.op = "sum" ∨ op.op = "max" ∨ op.op = "min" ∨
      op.op = "gini")
  · rw [if_pos h1] at h
    by_cases h2 : (effGroupBy op bc).isEmpty = true
    · rw [if_pos h2] at h
      by_cases h3 : op.op = "gini"
      · rw [if_pos h3] at h
        rw [← Except.ok.inj h]
        exact hasNull_postSeries _ bc
      · rw [if_neg h3] at h
        rw [← Except.ok.inj h]
        exact hasNull_postSeries _ bc
    · rw [if_neg h2] at h
      by_cases h4 : ((effGroupBy op bc).all
          (fun c => (df.idx ++ df.cols).contains c)) = true
      · rw [if_pos h4] at h
        by_cases h3 : op.op = "gini"
        · rw [if_pos h3] at h
          exact absurd h (by simp)
        · rw [if_neg h3] at h
          refine hasNull_postFrame _ (groupAgg_cols_disj df _ _) ?_ out h
          exact groupAgg_rows_shape df _ _
      · rw [if_neg h4] at h
        exact absurd h (by simp)
  · rw [if_neg h1] at h
    by_cases h5 : (op.op = "multiply" ∨ op.op = "weighted_sum")
    · rw [if_pos h5] at h
      rw [except_bind_eq_ok] at h
      obtain ⟨df1, hw1, h⟩ := h
      obtain ⟨cells, hshape⟩ := applyWeight_ok_shape env df op wmr df1 hw1
      have hidx1 : df1.idx = [] := by
        rw [hshape]
        exact hidx
      by_cases h6 : op.op = "weighted_sum"
      · rw [if_pos h6] at h
        by_cases h2 : (effGroupBy op bc).isEmpty = true
        · rw [if_pos h2] at h
          rw [← Except.ok.inj h]
          exact hasNull_postSeries _ bc
        · rw [if_neg h2] at h
          by_cases h4 : ((effGroupBy op bc).all
              (fun c => (df1.idx ++ df1.cols).contains c)) = true
          · rw [if_pos h4] at h
            refine hasNull_postFrame _ (groupAgg_cols_disj df1 _ _) ?_ out h
            exact groupAgg_rows_shape df1 _ _
          · rw [if_neg h4] at h
            exact absurd h (by simp)
      · rw [if_neg h6] at h
        refine hasNull_postFrame df1 ?_ ?_ out h
        · intro c _ hmem
          rw [hidx1] at hmem
          exact List.not_mem_nil c hmem
        · intro r _ c hc
          rw [hidx1] at hc
          exact absurd hc (List.not_mem_nil c)
    · rw [if_neg h5] at h
      by_cases h7 : op.op = "add_default"
      · exact absurd h7 hop
      · rw [if_neg h7] at h
        by_cases h8 : op.op = "subtract"
        · rw [if_pos h8] at h
          cases hn : op.num with
          | none =>
            rw [hn] at h
            dsimp only at h
            exact absurd h (by simp [Bind.bind, Except.bind])
          | some n =>
            rw [hn] at h
            dsimp only at h
            rw [except_bind_ok] at h
            by_cases hsc : "score" ∈ df.cols
            · rw [if_pos hsc] at h
              rw [except_bind_eq_ok] at h
              obtain ⟨sc, hsub, h⟩ := h
              refine hasNull_postFrame _ ?_ ?_ out h
              · intro c _ hmem
                have : (df.setCol "score" sc).idx = df.idx := rfl
                rw [this, hidx] at hmem
                exact List.not_mem_nil c hmem
              · intro r _ c hc
                have : (df.setCol "score" sc).idx = df.idx := rfl
                rw [this, hidx] at hc
                exact absurd hc (List.not_mem_nil c)
            · rw [if_neg hsc] at h
              exact absurd h (by simp)
        · rw [if_neg h8] at h
          exact absurd h (by simp)



/-- Witness for C3: the subtract step on the concrete table succeeds and its
output has no NaN. -/
theorem C3_nan_replaced_after_non_default_ops_witness :
    c3df.idx = [] ∧ subOp.op ≠ "add_default" ∧
    stepOp env0 c3df subOp false = .ok
      { idx := [], cols := ["index", "system_name", "sub_dataset", "score"],
        rows := [[("index", Cell.num ((0 : ℕ) : ℚ)),
                  ("system_name", Cell.str "sys1"),
                  ("sub_dataset", Cell.str "en"),
                  ("score", Cell.num ((1 : ℚ) - 1))]] } ∧
    DFrame.hasNull
      { idx := [], cols := ["index", "system_name", "sub_dataset", "score"],
        rows := [[("index", Cell.num ((0 : ℕ) : ℚ)),
                  ("system_name", Cell.str "sys1"),
                  ("sub_dataset", Cell.str "en"),
                  ("score", Cell.num ((1 : ℚ) - 1))]] } = false :=
  ⟨rfl, by decide, rfl,
    C3_nan_replaced_after_non_default_ops env0 c3df subOp false _ rfl (by decide) rfl⟩



/-- Helper: dict lookup after insert-or-replace. -/
theorem dictGet_upsert [DecidableEq κ] (m : List (κ × β)) (k : κ) (v : β) (c : κ) :
    dictGet (upsert m k v) c = if k = c then some v else dictGet m c := by
  induction m with
  | nil =>
    by_cases h : k = c <;> simp [upsert, dictGet, List.find?, h]
  | cons p m ih =>
    rcases p with ⟨k', v'⟩
    by_cases h : k' = k
    · subst h
      by_cases hc : k' = c <;> simp [upsert, dictGet, List.find?, hc]
    · by_cases hc : k' = c
      · subst hc
        have hkc : ¬ k = k' := fun hx => h hx.symm
        simp [upsert, dictGet, List.find?, h, hkc]
      · simp only [upsert, if_neg h]
        rw [show dictGet ((k', v') :: upsert m k v) c =
          dictGet (upsert m k v) c from by simp [dictGet, List.find?, hc]]
        rw [show dictGet ((k', v') :: m) c = dictGet m c from by
          simp [dictGet, List.find?, hc]]
        exact ih

/-- Helper: the mode dict always maps `"Original"` to the sentinel
`"original"`. -/
theorem plotModes_original (config : BenchmarkConfig) :
    dictGet (plotModes config) "Original" = some "original" := by
  rw [plotModes, dictGet_upsert]
  simp

/-- Helper: the initial series mapping holds an empty `"Original"`
series. -/
theorem jsonInit_original (config : BenchmarkConfig) :
    dictGet (jsonInit config) "Original" = some [] := by
  rw [jsonInit, dictGet_upsert, dictGet_upsert]
  simp

/-- Helper: one recording step never appends to the `"Original"`
series. -/
theorem plotInnerStep_original (config : BenchmarkConfig) (ds : String)
    (json j2 : PlotJson) (kv : String × DFrame)
    (h : plotInnerStep config ds json kv = .ok j2)
    (h0 : dictGet json "Original" = some []) :
    dictGet j2 "Original" = some [] := by
  rw [plotInnerStep] at h
  by_cases hk : kv.1 = "Original"
  · rw [hk, plotModes_original] at h
    rw [if_neg (by decide)] at h
    rw [← Except.ok.inj h]
    exact h0
  · by_cases hmode : ((dictGet (plotModes config) kv.1).getD "" = "all" ∨
        (dictGet (plotModes config) kv.1).getD "" = "increase")
    · rw [if_pos hmode] at h
      rw [except_bind_eq_ok] at h
      obtain ⟨m, hm, h⟩ := h
      rw [← Except.ok.inj h, dictGet_upsert]
      rw [if_neg hk]
      exact h0
    · rw [if_neg hmode] at h
      rw [← Except.ok.inj h]
      exact h0

/-- Helper: a whole per-date recording pass keeps the `"Original"` series
empty. -/
theorem plotInnerFold_original (config : BenchmarkConfig) (ds : String) :
    ∀ (l : List (String × DFrame)) (json j2 : PlotJson),
    (l.foldlM (plotInnerStep config ds) json) = .ok j2 →
    dictGet json "Original" = some [] → dictGet j2 "Original" = some [] := by
  intro l
  induction l with
  | nil =>
    intro json j2 h h0
    rw [← Except.ok.inj h]
    exact h0
  | cons kv l ih =>
    intro json j2 h h0
    rw [List.foldlM_cons, except_bind_eq_ok] at h
    obtain ⟨j1, h1, h⟩ := h
    exact ih j1 j2 h (plotInnerStep_original config ds json j1 kv h1 h0)

/-- Helper: a full date step keeps the `"Original"` series empty. -/
theorem plotDateStep_original (env : Env) (config : BenchmarkConfig)
    (sys_infos : List SystemModel) (json j2 : PlotJson) (date : Nat)
    (h : plotDateStep env config sys_infos json date = .ok j2)
    (h0 : dictGet json "Original" = some []) :
    dictGet j2 "Original" = some [] := by
  rw [plotDateStep] at h
  rw [except_bind_eq_ok] at h
  obtain ⟨orig_df, _, h⟩ := h
  rw [except_bind_eq_ok] at h
  obtain ⟨sdfs, _, h⟩ := h
  exact plotInnerFold_original config (toString date) sdfs json j2 h h0

/-- C4 (amended): the series recorded for the literal unaggregated table is
always empty — the `"Original"` entry is assigned the sentinel mode
`"original"`, which matches neither the `all` nor the `increase` branch of the
recording loop, so no point is ever appended regardless of the submission
dates. -/
theorem C4_original_series_always_empty (env : Env) (config : BenchmarkConfig)
    (sys_infos : List SystemModel) (j : PlotJson)
    (hab : ¬ config.btype = some "abstract")
    (h : computePlots env config sys_infos = .ok j) :
    dictGet j "Original" = some [] := by
  rw [computePlots, if_neg hab] at h
  have main : ∀ (dates : List Nat) (json : PlotJson),
      (dates.foldlM (plotDateStep env config sys_infos) json) = .ok j →
      dictGet json "Original" = some [] → dictGet j "Original" = some [] := by
    intro dates
    induction dates with
    | nil =>
      intro json hh h0
      rw [← Except.ok.inj hh]
      exact h0
    | cons d dates ih =>
      intro json hh h0
      rw [List.foldlM_cons, except_bind_eq_ok] at hh
      obtain ⟨j1, h1, hh⟩ := hh
      exact ih j1 hh (plotDateStep_original env config sys_infos json j1 d h1 h0)
  exact main (uniqueDates sys_infos) (jsonInit config) h (jsonInit_original config)

/-- Witness for C4: a concrete non-abstract benchmark with one submission
computes a plot mapping whose `"Original"` series is empty. -/
theorem C4_original_series_always_empty_witness :
    (¬ cfg2.btype = some "abstract") ∧
    computePlots env0 cfg2 [sysA] = .ok (jsonInit cfg2) ∧
    dictGet (jsonInit cfg2) "Original" = some [] :=
  ⟨by decide, by decide,
    C4_original_series_always_empty env0 cfg2 [sysA] (jsonInit cfg2) (by decide) (by decide)⟩
theorem lastIdxOf_spec : ∀ (keys : List DsKey) (k : DsKey) (i : Nat),
    lastIdxOf keys k = some i → i < keys.length ∧ keys.get? i = some k := by
  intro keys
  induction keys with
  | nil =>
    intro k i h
    simp [lastIdxOf] at h
  | cons x xs ih =>
    intro k i h
    rw [lastIdxOf] at h
    cases ht : lastIdxOf xs k with
    | some j =>
      rw [ht] at h
      obtain ⟨hlt, hget⟩ := ih k j ht
      have hi : i = j + 1 := (Option.some.inj h).symm
      subst hi
      exact ⟨Nat.succ_lt_succ hlt, by simpa using hget⟩
    | none =>
      rw [ht] at h
      by_cases hx : x = k
      · rw [if_pos hx] at h
        have hi : i = 0 := (Option.some.inj h).symm
        subst hi
        simp [hx]
      · rw [if_neg hx] at h
        exact absurd h (by simp)

theorem zip3_get? : ∀ (as : List α) (bs : List β) (cs : List γ) (i : Nat)
    (a : α) (b : β) (c : γ),
    as.get? i = some a → bs.get? i = some b → cs.get? i = some c →
    (zip3 as bs cs).get? i = some (a, b, c) := by
  intro as
  induction as with
  | nil =>
    intro bs cs i a b c ha
    simp at ha
  | cons x as ih =>
    intro bs cs i a b c ha hb hc
    cases bs with
    | nil => simp at hb
    | cons y bs =>
      cases cs with
      | nil => simp at hc
      | cons z cs =>
        cases i with
        | zero =>
          simp only [List.get?] at ha hb hc
          rw [zip3]
          simp [Option.some.inj ha, Option.some.inj hb, Option.some.inj hc]
        | succ n =>
          simp only [List.get?] at ha hb hc
          rw [zip3]
          simpa using ih bs cs n a b c ha hb hc

theorem foldl_mono (f : List String → γ → List String)
    (hmono : ∀ acc x c, c ∈ acc → c ∈ f acc x) :
    ∀ (l : List γ) (acc : List String) (c : String), c ∈ acc → c ∈ l.foldl f acc := by
  intro l
  induction l with
  | nil =>
    intro acc c hc
    simpa using hc
  | cons x l ih =>
    intro acc c hc
    rw [List.foldl_cons]
    exact ih (f acc x) c (hmono acc x c hc)

theorem addDatasetKey_mono (acc : List String) (k c : String) (hc : c ∈ acc) :
    c ∈ addDatasetKey acc k := by
  rw [addDatasetKey]
  split
  · exact List.mem_append_left _ hc
  · exact hc

theorem addOpKey_mono (acc : List String) (k c : String) (hc : c ∈ acc) :
    c ∈ addOpKey acc k := by
  rw [addOpKey]
  split
  · exact List.mem_append_left _ hc
  · exact hc

theorem insKey_mono (acc : List String) (x c : String) (hc : c ∈ acc) :
    c ∈ (if x ∈ acc then acc else acc ++ [x]) := by
  split
  · exact hc
  · exact List.mem_append_left _ hc

theorem datasetKeys_fold_mono (acc : List String) (d : DatasetCfg) (c : String)
    (hc : c ∈ acc) :
    c ∈ (d.entries.map (fun p => p.1)).foldl addDatasetKey acc :=
  foldl_mono addDatasetKey addDatasetKey_mono _ acc c hc

theorem opKeys_fold_mono (acc : List String) (v : BenchmarkViewConfig) (c : String)
    (hc : c ∈ acc) :
    c ∈ v.operations.foldl (fun a op => (opColKeys op).foldl addOpKey a) acc :=
  foldl_mono _ (fun a op c2 h2 => foldl_mono addOpKey addOpKey_mono _ a c2 h2)
    v.operations acc c hc

theorem dfColumns_base (config : BenchmarkConfig) (dcfgs : List DatasetCfg) (c : String)
    (hc : c ∈ ["system_name", "dataset_name", "sub_dataset", "dataset_split", "creator"]) :
    c ∈ dfColumns config dcfgs := by
  rw [dfColumns]
  refine foldl_mono _ insKey_mono _ _ c ?_
  refine foldl_mono _ opKeys_fold_mono _ _ c ?_
  refine foldl_mono _ datasetKeys_fold_mono _ _ c ?_
  exact hc

theorem insKey_mem (l : List String) (k : String) :
    ∀ acc : List String, k ∈ l →
      k ∈ l.foldl (fun a k => if k ∈ a then a else a ++ [k]) acc := by
  induction l with
  | nil =>
    intro acc hk
    simp at hk
  | cons x l ih =>
    intro acc hk
    rw [List.foldl_cons]
    rcases List.mem_cons.mp hk with h1 | h1
    · subst h1
      refine foldl_mono _ insKey_mono _ _ k ?_
      show k ∈ (if k ∈ acc then acc else acc ++ [k])
      split
      · assumption
      · exact List.mem_append_right _ (by simp)
    · exact ih _ h1

theorem dfColumns_metric (config : BenchmarkConfig) (dcfgs : List DatasetCfg) (c : String)
    (hc : c ∈ ["metric", "metric_weight", "score"]) :
    c ∈ dfColumns config dcfgs := by
  rw [dfColumns]
  exact insKey_mem _ c _ hc



theorem replicate_get? (k i : Nat) (a : Option SystemModel) (h : i < k) :
    (List.replicate k a).get? i = some a := by
  rw [List.get?_eq_getElem?]
  simp [List.getElem?_replicate, h]

theorem lastSubmission_append (keys : List DsKey) (done : List SystemModel)
    (sys : SystemModel) (n : String) (i : Nat) :
    lastSubmission keys (done ++ [sys]) n i =
      if slotPred keys n i sys = true then some sys
      else lastSubmission keys done n i := by
  rw [lastSubmission, List.reverse_append]
  rw [show (([sys] : List SystemModel).reverse ++ done.reverse) = sys :: done.reverse by simp]
  rw [List.find?_cons]
  cases hp : slotPred keys n i sys <;> simp [hp, lastSubmission]

theorem mem_slotModify (m : SlotMap) (n : String)
    (f : List (Option SystemModel) → List (Option SystemModel))
    (p : String × List (Option SystemModel)) :
    p ∈ slotModify m n f ↔
      ∃ q ∈ m, p = (if q.1 = n then (q.1, f q.2) else q) := by
  rw [slotModify, List.mem_map]
  constructor
  · rintro ⟨q, hq, rfl⟩
    exact ⟨q, hq, by split <;> simp_all⟩
  · rintro ⟨q, hq, rfl⟩
    refine ⟨q, hq, ?_⟩
    split <;> simp_all

theorem sysSlotsStep_inv (keys : List DsKey) (done : List SystemModel) (m : SlotMap)
    (sys : SystemModel)
    (h1 : ∀ p ∈ m, (p.2 : List (Option SystemModel)).length = keys.length)
    (h2 : ∀ n : String, (∃ sl, (n, sl) ∈ m) ↔ ∃ s ∈ done, s.system_name = n)
    (h3 : ∀ p ∈ m, ∀ i, i < keys.length →
      p.2.get? i = some (lastSubmission keys done p.1 i)) :
    (∀ p ∈ sysSlotsStep keys m sys, (p.2 : List (Option SystemModel)).length = keys.length) ∧
    (∀ n : String, (∃ sl, (n, sl) ∈ sysSlotsStep keys m sys) ↔
      ∃ s ∈ done ++ [sys], s.system_name = n) ∧
    (∀ p ∈ sysSlotsStep keys m sys, ∀ i, i < keys.length →
      p.2.get? i = some (lastSubmission keys (done ++ [sys]) p.1 i)) := by
  have hm1_len : ∀ p ∈ (if m.any (fun p => p.1 = sys.system_name) then m
      else m ++ [(sys.system_name, List.replicate keys.length none)]),
      (p.2 : List (Option SystemModel)).length = keys.length := by
    intro p hp
    split at hp
    · exact h1 p hp
    · rcases List.mem_append.mp hp with h | h
      · exact h1 p h
      · rw [List.mem_singleton.mp h]
        simp
  have hm1_names : ∀ n' : String, (∃ sl, (n', sl) ∈ (if m.any (fun p => p.1 = sys.system_name)
      then m else m ++ [(sys.system_name, List.replicate keys.length none)])) ↔
      ((∃ s ∈ done, s.system_name = n') ∨ n' = sys.system_name) := by
    intro n'
    by_cases hany : m.any (fun p => p.1 = sys.system_name) = true
    · rw [if_pos hany]
      rw [List.any_eq_true] at hany
      obtain ⟨q, hq, hqn⟩ := hany
      constructor
      · rintro ⟨sl, hsl⟩
        exact Or.inl ((h2 n').mp ⟨sl, hsl⟩)
      · rintro (h | h)
        · exact (h2 n').mpr h
        · refine ⟨q.2, ?_⟩
          have hq1 : q.1 = n' := by rw [h]; simpa using hqn
          rw [← hq1]
          exact hq
    · rw [if_neg hany]
      constructor
      · rintro ⟨sl, hsl⟩
        rcases List.mem_append.mp hsl with h | h
        · exact Or.inl ((h2 n').mp ⟨sl, h⟩)
        · have hsl2 := List.mem_singleton.mp h
          exact Or.inr (by simpa using congrArg Prod.fst hsl2)
      · rintro (h | h)
        · obtain ⟨sl, hsl⟩ := (h2 n').mpr h
          exact ⟨sl, List.mem_append_left _ hsl⟩
        · subst h
          exact ⟨List.replicate keys.length none,
            List.mem_append_right _ (List.mem_singleton.mpr rfl)⟩
  have hdone_none : ¬ (m.any (fun p => p.1 = sys.system_name) = true) → ∀ i,
      lastSubmission keys done sys.system_name i = none := by
    intro hany i
    rw [lastSubmission, List.find?_eq_none]
    intro s hs hpred
    have hsname : s.system_name = sys.system_name := by
      rw [slotPred, Bool.and_eq_true] at hpred
      simpa using hpred.1
    obtain ⟨sl, hsl⟩ := (h2 sys.system_name).mpr ⟨s, List.mem_reverse.mp hs, hsname⟩
    exact hany (List.any_eq_true.mpr ⟨(sys.system_name, sl), hsl, by simp⟩)
  -- names reachable in done ++ [sys] split into old names and the new one
  have hnames_append : ∀ n' : String,
      (∃ s ∈ done ++ [sys], s.system_name = n') ↔
      ((∃ s ∈ done, s.system_name = n') ∨ n' = sys.system_name) := by
    intro n'
    constructor
    · rintro ⟨s, hs, rfl⟩
      rcases List.mem_append.mp hs with h | h
      · exact Or.inl ⟨s, h, rfl⟩
      · rw [List.mem_singleton.mp h]
        exact Or.inr rfl
    · rintro (⟨s, hs, rfl⟩ | h)
      · exact ⟨s, List.mem_append_left _ hs, rfl⟩
      · exact ⟨sys, List.mem_append_right _ (by simp), h.symm⟩
  refine ⟨?_, ?_, ?_⟩
  · intro p hp
    rw [sysSlotsStep] at hp
    rcases hli : lastIdxOf keys sys.dsKey with _ | i0
    · rw [hli] at hp
      exact hm1_len p hp
    · rw [hli] at hp
      rw [mem_slotModify] at hp
      obtain ⟨q, hq, rfl⟩ := hp
      split
      · simpa using hm1_len q hq
      · exact hm1_len q hq
  · intro n'
    rw [sysSlotsStep, hnames_append]
    rcases hli : lastIdxOf keys sys.dsKey with _ | i0
    · exact hm1_names n'
    · rw [← hm1_names n']
      constructor
      · rintro ⟨sl, hsl⟩
        rw [mem_slotModify] at hsl
        obtain ⟨q, hq, heq⟩ := hsl
        by_cases hqn : q.1 = sys.system_name
        · rw [if_pos hqn] at heq
          refine ⟨q.2, ?_⟩
          have : n' = q.1 := by simpa using congrArg Prod.fst heq
          rw [this]
          simpa using hq
        · rw [if_neg hqn] at heq
          exact ⟨sl, heq ▸ hq⟩
      · rintro ⟨sl, hsl⟩
        by_cases hqn : n' = sys.system_name
        · refine ⟨sl.set i0 (some sys), ?_⟩
          rw [mem_slotModify]
          exact ⟨(n', sl), hsl, by simp [hqn]⟩
        · refine ⟨sl, ?_⟩
          rw [mem_slotModify]
          exact ⟨(n', sl), hsl, by simp [hqn]⟩
  · intro p hp i hi
    rcases hli : lastIdxOf keys sys.dsKey with _ | i0
    -- no slot for this submission: the map is unchanged (modulo a fresh empty entry)
    · have hp' : p ∈ (if m.any (fun p => p.1 = sys.system_name) then m
          else m ++ [(sys.system_name, List.replicate keys.length none)]) := by
        rw [sysSlotsStep, hli] at hp
        exact hp
      have hpred_false : slotPred keys p.1 i sys = false := by
        rw [Bool.eq_false_iff]
        intro hb
        rw [slotPred, Bool.and_eq_true, hli] at hb
        simpa using hb.2
      rw [lastSubmission_append, hpred_false]
      simp only [Bool.false_eq_true, if_false]
      by_cases hany : m.any (fun p => p.1 = sys.system_name) = true
      · rw [if_pos hany] at hp'
        exact h3 p hp' i hi
      · rw [if_neg hany] at hp'
        rcases List.mem_append.mp hp' with h | h
        · exact h3 p h i hi
        · have hp2 := List.mem_singleton.mp h
          rw [show p.2 = List.replicate keys.length none from by rw [hp2]]
          rw [replicate_get? _ _ _ hi]
          rw [show p.1 = sys.system_name from by rw [hp2]]
          rw [hdone_none hany i]
    · have hp' : p ∈ slotModify (if m.any (fun p => p.1 = sys.system_name) then m
          else m ++ [(sys.system_name, List.replicate keys.length none)]) sys.system_name
          (fun sl => sl.set i0 (some sys)) := by
        rw [sysSlotsStep, hli] at hp
        exact hp
      rw [mem_slotModify] at hp'
      obtain ⟨q, hq, rfl⟩ := hp'
      have hqlen : (q.2 : List (Option SystemModel)).length = keys.length := hm1_len q hq
      by_cases hqn : q.1 = sys.system_name
      · rw [if_pos hqn]
        by_cases hii : i = i0
        · subst hii
          have hset : ((q.1, q.2.set i (some sys)) :
              String × List (Option SystemModel)).2.get? i = some (some sys) := by
            exact List.get?_set_eq_of_lt (some sys) (by rw [hqlen]; exact hi)
          rw [hset]
          have hpred_true : slotPred keys q.1 i sys = true := by
            rw [slotPred, Bool.and_eq_true]
            exact ⟨by simp [hqn], by simp [hli]⟩
          rw [lastSubmission_append, if_pos hpred_true]
        · have hset : ((q.1, q.2.set i0 (some sys)) :
              String × List (Option SystemModel)).2.get? i = q.2.get? i := by
            exact List.get?_set_ne (some sys) q.2 (fun hx => hii hx.symm)
          rw [hset]
          have hpred_false : slotPred keys q.1 i sys = false := by
            rw [Bool.eq_false_iff]
            intro hb
            rw [slotPred, Bool.and_eq_true, hli] at hb
            have : i0 = i := by simpa using hb.2
            exact hii this.symm
          rw [lastSubmission_append, hpred_false]
          simp only [Bool.false_eq_true, if_false]
          by_cases hany : m.any (fun p => p.1 = sys.system_name) = true
          · rw [if_pos hany] at hq
            exact h3 q hq i hi
          · rw [if_neg hany] at hq
            rcases List.mem_append.mp hq with h | h
            · exact h3 q h i hi
            · have hq2 := List.mem_singleton.mp h
              rw [show q.2 = List.replicate keys.length none from by rw [hq2]]
              rw [replicate_get? _ _ _ hi]
              rw [show q.1 = sys.system_name from by rw [hq2]]
              rw [hdone_none hany i]
      · rw [if_neg hqn]
        have hpred_false : slotPred keys q.1 i sys = false := by
          rw [Bool.eq_false_iff]
          intro hb
          rw [slotPred, Bool.and_eq_true] at hb
          have : sys.system_name = q.1 := by simpa using hb.1
          exact hqn this.symm
        rw [lastSubmission_append, hpred_false]
        simp only [Bool.false_eq_true, if_false]
        by_cases hany : m.any (fun p => p.1 = sys.system_name) = true
        · rw [if_pos hany] at hq
          exact h3 q hq i hi
        · rw [if_neg hany] at hq
          rcases List.mem_append.mp hq with h | h
          · exact h3 q h i hi
          · have hq2 := List.mem_singleton.mp h
            exact absurd (by rw [hq2]) hqn

theorem sysSlots_fold_inv (keys : List DsKey) (rest : List SystemModel) :
    ∀ (done : List SystemModel) (m : SlotMap),
      (∀ p ∈ m, (p.2 : List (Option SystemModel)).length = keys.length) →
      (∀ n : String, (∃ sl, (n, sl) ∈ m) ↔ ∃ s ∈ done, s.system_name = n) →
      (∀ p ∈ m, ∀ i, i < keys.length →
        p.2.get? i = some (lastSubmission keys done p.1 i)) →
      (∀ p ∈ rest.foldl (sysSlotsStep keys) m,
        (p.2 : List (Option SystemModel)).length = keys.length) ∧
      (∀ n : String, (∃ sl, (n, sl) ∈ rest.foldl (sysSlotsStep keys) m) ↔
        ∃ s ∈ done ++ rest, s.system_name = n) ∧
      (∀ p ∈ rest.foldl (sysSlotsStep keys) m, ∀ i, i < keys.length →
        p.2.get? i = some (lastSubmission keys (done ++ rest) p.1 i)) := by
  induction rest with
  | nil =>
    intro done m h1 h2 h3
    simp only [List.foldl_nil, List.append_nil]
    exact ⟨h1, h2, h3⟩
  | cons sys rest ih =>
    intro done m h1 h2 h3
    have step := sysSlotsStep_inv keys done m sys h1 h2 h3
    have main := ih (done ++ [sys]) (sysSlotsStep keys m sys) step.1 step.2.1 step.2.2
    rw [List.foldl_cons]
    rw [List.append_assoc, List.singleton_append] at main
    exact main

theorem sysSlots_inv (keys : List DsKey) (systems : List SystemModel) :
    (∀ p ∈ sysSlots keys systems, (p.2 : List (Option SystemModel)).length = keys.length) ∧
    (∀ n : String, (∃ sl, (n, sl) ∈ sysSlots keys systems) ↔
      ∃ s ∈ systems, s.system_name = n) ∧
    (∀ p ∈ sysSlots keys systems, ∀ i, i < keys.length →
      p.2.get? i = some (lastSubmission keys systems p.1 i)) := by
  have main := sysSlots_fold_inv keys systems [] []
    (by intro p hp; simp at hp) (by intro n; simp)
    (by intro p hp; simp at hp)
  rw [sysSlots]
  simpa using main

theorem mkRow_getCol_facts (config : BenchmarkConfig) (dcfgs : List DatasetCfg)
    (d : DatasetCfg) (meta : DatasetMeta) (sysName creator : String) (score : ℚ)
    (metric : BenchmarkMetric) (n : Nat) :
    Row.getCol (mkRow (dfColumns config dcfgs) d meta sysName creator score metric n)
      "system_name" = Cell.str sysName ∧
    Row.getCol (mkRow (dfColumns config dcfgs) d meta sysName creator score metric n)
      "dataset_name" = (dictGet d.entries "dataset_name").getD Cell.null ∧
    Row.getCol (mkRow (dfColumns config dcfgs) d meta sysName creator score metric n)
      "metric" = Cell.str metric.name ∧
    Row.getCol (mkRow (dfColumns config dcfgs) d meta sysName creator score metric n)
      "score" = Cell.num score ∧
    Row.getCol (mkRow (dfColumns config dcfgs) d meta sysName creator score metric n)
      "creator" = Cell.str creator := by
  simp only [mkRow]
  refine ⟨?_, ?_, ?_, ?_, ?_⟩
  · rw [getCol_mapPair, if_pos (dfColumns_base config dcfgs _ (by simp))]
    rw [rowCellFor]
    simp [dictGet_upsert]
  · rw [getCol_mapPair, if_pos (dfColumns_base config dcfgs _ (by simp))]
    rw [rowCellFor]
    simp only [dictGet_upsert]
    rw [if_neg (by decide), if_neg (by decide), if_neg (by decide), if_neg (by decide),
      if_neg (by decide)]
    cases hc : dictGet d.entries "dataset_name" with
    | some c => simp
    | none =>
      simp only [Option.getD_none]
      rw [if_neg (by decide), if_neg (by decide), if_neg (by decide), if_neg (by decide)]
  · rw [getCol_mapPair, if_pos (dfColumns_metric config dcfgs _ (by simp))]
    rw [rowCellFor]
    simp [dictGet_upsert]
  · rw [getCol_mapPair, if_pos (dfColumns_metric config dcfgs _ (by simp))]
    rw [rowCellFor]
    simp [dictGet_upsert]
  · rw [getCol_mapPair, if_pos (dfColumns_base config dcfgs _ (by simp))]
    rw [rowCellFor]
    simp [dictGet_upsert]

theorem generate_row_mem (env : Env) (config : BenchmarkConfig)
    (systemsIn : List SystemModel) (df : DFrame) (i : Nat) (d2 : DatasetCfg)
    (meta : DatasetMeta) (mets : List BenchmarkMetric) (metric : BenchmarkMetric)
    (sysName : String) (sub : Option SystemModel)
    (h : generate_dataframe_from_sys_infos env config systemsIn = Except.ok df)
    (hi : (datasetConfigsOf config systemsIn).get? i = some d2)
    (hmeta : env.findDataset ((d2.get? "dataset_name").getD Cell.null)
      ((d2.get? "sub_dataset").getD Cell.null) = some meta)
    (hmets : effMetrics config d2 = some mets)
    (hmet : metric ∈ mets)
    (hsub : ∃ s ∈ filteredSystems config systemsIn, s.system_name = sysName)
    (hslot : lastSubmission ((datasetConfigsOf config systemsIn).map DatasetCfg.dsKey)
      (filteredSystems config systemsIn) sysName i = sub)
    (hilt : i < (datasetConfigsOf config systemsIn).length) :
    (match sub with
     | some sys => mkRow (dfColumns config (datasetConfigsOf config systemsIn)) d2 meta
         sysName sys.creator (resolveScorePresent sys metric) metric mets.length
     | none => mkRow (dfColumns config (datasetConfigsOf config systemsIn)) d2 meta
         sysName ((systemToCreator (filteredSystems config systemsIn) sysName).getD "")
         (pyOr metric.default 0) metric mets.length) ∈ df.rows := by
  have hinv := sysSlots_inv ((datasetConfigsOf config systemsIn).map DatasetCfg.dsKey)
    (filteredSystems config systemsIn)
  obtain ⟨sl, hslmem⟩ := (hinv.2.1 sysName).mpr hsub
  have hilt' : i < ((datasetConfigsOf config systemsIn).map DatasetCfg.dsKey).length := by
    simpa using hilt
  have hsl := hinv.2.2 (sysName, sl) hslmem i hilt'
  simp only at hsl
  rw [hslot] at hsl
  have hmetai : ((datasetConfigsOf config systemsIn).map (fun d =>
      env.findDataset ((d.get? "dataset_name").getD Cell.null)
        ((d.get? "sub_dataset").getD Cell.null))).get? i = some (some meta) := by
    rw [List.get?_map, hi]
    simpa using hmeta
  have hz := zip3_get? (datasetConfigsOf config systemsIn) _ sl i d2 (some meta) sub
    hi hmetai hsl
  have htmem := List.get?_mem hz
  simp only [generate_dataframe_from_sys_infos] at h
  split at h
  · exact Except.noConfusion h
  · injection h with h
    subst h
    simp only
    rw [List.mem_flatMap]
    refine ⟨(sysName, sl), hslmem, ?_⟩
    rw [List.mem_flatMap]
    refine ⟨(d2, some meta, sub), htmem, ?_⟩
    simp only
    rw [hmets]
    cases sub with
    | some sys => exact List.mem_map_of_mem _ hmet
    | none => exact List.mem_map_of_mem _ hmet

/-- C5: when the benchmark's dataset list resolves a dataset config `d2` (slot
`i`, resolvable metadata, effective metrics), every system name present among
the filtered submissions that occupies no slot for `d2` still yields one
long-table row per metric of `d2`, with score `metric.default or 0.0` and
creator looked up from `system_to_creator` — the row is emitted, not
dropped. -/
theorem C5_missing_dataset_row_emitted (env : Env) (config : BenchmarkConfig)
    (systemsIn : List SystemModel) (df : DFrame) (i : Nat) (d2 : DatasetCfg)
    (meta : DatasetMeta) (mets : List BenchmarkMetric) (metric : BenchmarkMetric)
    (sysName : String)
    (h : generate_dataframe_from_sys_infos env config systemsIn = Except.ok df)
    (hi : (datasetConfigsOf config systemsIn).get? i = some d2)
    (hkey : lastIdxOf ((datasetConfigsOf config systemsIn).map DatasetCfg.dsKey) d2.dsKey
      = some i)
    (hmeta : env.findDataset ((d2.get? "dataset_name").getD Cell.null)
      ((d2.get? "sub_dataset").getD Cell.null) = some meta)
    (hmets : effMetrics config d2 = some mets)
    (hmet : metric ∈ mets)
    (hsub : ∃ s ∈ filteredSystems config systemsIn, s.system_name = sysName)
    (hnot : lastSubmission ((datasetConfigsOf config systemsIn).map DatasetCfg.dsKey)
      (filteredSystems config systemsIn) sysName i = none) :
    ∃ row ∈ df.rows,
      Row.getCol row "system_name" = Cell.str sysName ∧
      Row.getCol row "dataset_name" = (dictGet d2.entries "dataset_name").getD Cell.null ∧
      Row.getCol row "metric" = Cell.str metric.name ∧
      Row.getCol row "score" = Cell.num (pyOr metric.default 0) ∧
      Row.getCol row "creator" =
        Cell.str ((systemToCreator (filteredSystems config systemsIn) sysName).getD "") := by
  have hilt : i < (datasetConfigsOf config systemsIn).length := by
    have := (lastIdxOf_spec _ _ _ hkey).1
    simpa using this
  have hmem := generate_row_mem env config systemsIn df i d2 meta mets metric sysName none
    h hi hmeta hmets hmet hsub hnot hilt
  obtain ⟨f1, f2, f3, f4, f5⟩ := mkRow_getCol_facts config (datasetConfigsOf config systemsIn)
    d2 meta sysName ((systemToCreator (filteredSystems config systemsIn) sysName).getD "")
    (pyOr metric.default 0) metric mets.length
  exact ⟨_, hmem, f1, f2, f3, f4, f5⟩

/-- Witness for C5: benchmark `cfg2` lists datasets `d1` and `d2`; system `sA`
is submitted only for `d1`; the long table nevertheless holds a `(sA, d2, m)`
row with the default score. -/
theorem C5_missing_dataset_row_emitted_witness :
    ∃ df, generate_dataframe_from_sys_infos env0 cfg2 [sysA] = Except.ok df ∧
      ∃ row ∈ df.rows,
        Row.getCol row "system_name" = Cell.str "sA" ∧
        Row.getCol row "dataset_name" =
          (dictGet [("dataset_name", Cell.str "d2")] "dataset_name").getD Cell.null ∧
        Row.getCol row "metric" = Cell.str met0.name ∧
        Row.getCol row "score" = Cell.num (pyOr met0.default 0) ∧
        Row.getCol row "creator" =
          Cell.str ((systemToCreator (filteredSystems cfg2 [sysA]) "sA").getD "") := by
  obtain ⟨df, hdf⟩ : ∃ df, generate_dataframe_from_sys_infos env0 cfg2 [sysA] =
      Except.ok df := ⟨_, rfl⟩
  refine ⟨df, hdf, ?_⟩
  exact C5_missing_dataset_row_emitted env0 cfg2 [sysA] df 1
    { entries := [("dataset_name", Cell.str "d2")] } ⟨"d2", ["en", "fr"]⟩ [met0] met0 "sA"
    hdf rfl rfl rfl rfl (List.mem_singleton.mpr rfl)
    ⟨sysA, List.mem_singleton.mpr rfl, rfl⟩ rfl

/-- C1 (amended): for a (system, dataset, metric) triple where the system
occupies the dataset's slot, the emitted score is the maximum value recorded
for the metric name — except that, by Python truthiness, a maximum of exactly
0 also falls back to `metric.default or 0.0`, and so does an absent metric. -/
theorem C1_score_resolution_amended (env : Env) (config : BenchmarkConfig)
    (systemsIn : List SystemModel) (df : DFrame) (i : Nat) (d2 : DatasetCfg)
    (meta : DatasetMeta) (mets : List BenchmarkMetric) (metric : BenchmarkMetric)
    (sysName : String) (sys : SystemModel)
    (h : generate_dataframe_from_sys_infos env config systemsIn = Except.ok df)
    (hi : (datasetConfigsOf config systemsIn).get? i = some d2)
    (hkey : lastIdxOf ((datasetConfigsOf config systemsIn).map DatasetCfg.dsKey) d2.dsKey
      = some i)
    (hmeta : env.findDataset ((d2.get? "dataset_name").getD Cell.null)
      ((d2.get? "sub_dataset").getD Cell.null) = some meta)
    (hmets : effMetrics config d2 = some mets)
    (hmet : metric ∈ mets)
    (hsub : ∃ s ∈ filteredSystems config systemsIn, s.system_name = sysName)
    (hsys : lastSubmission ((datasetConfigsOf config systemsIn).map DatasetCfg.dsKey)
      (filteredSystems config systemsIn) sysName i = some sys) :
    ∃ row ∈ df.rows,
      Row.getCol row "system_name" = Cell.str sysName ∧
      Row.getCol row "metric" = Cell.str metric.name ∧
      Row.getCol row "creator" = Cell.str sys.creator ∧
      Row.getCol row "score" = Cell.num
        (match (matchingResults sys metric.name).max? with
         | some p => if p = 0 then pyOr metric.default 0 else p
         | none => pyOr metric.default 0) := by
  have hilt : i < (datasetConfigsOf config systemsIn).length := by
    have := (lastIdxOf_spec _ _ _ hkey).1
    simpa using this
  have hmem := generate_row_mem env config systemsIn df i d2 meta mets metric sysName
    (some sys) h hi hmeta hmets hmet hsub hsys hilt
  obtain ⟨f1, f2, f3, f4, f5⟩ := mkRow_getCol_facts config (datasetConfigsOf config systemsIn)
    d2 meta sysName sys.creator (resolveScorePresent sys metric) metric mets.length
  refine ⟨_, hmem, f1, f3, f5, ?_⟩
  rw [f4, resolveScorePresent]

/-- Witness for C1 (amended): system `sA` on dataset `d1` with recorded value
exactly 0 for metric `m`; the emitted row exists and its score follows the
truthiness formula (here resolving to the default 5, not the recorded 0). -/
theorem C1_score_resolution_amended_witness :
    ∃ df, generate_dataframe_from_sys_infos env0 cfg2 [sysA] = Except.ok df ∧
      ∃ row ∈ df.rows,
        Row.getCol row "system_name" = Cell.str "sA" ∧
        Row.getCol row "metric" = Cell.str met0.name ∧
        Row.getCol row "creator" = Cell.str sysA.creator ∧
        Row.getCol row "score" = Cell.num
          (match (matchingResults sysA met0.name).max? with
           | some p => if p = 0 then pyOr met0.default 0 else p
           | none => pyOr met0.default 0) := by
  obtain ⟨df, hdf⟩ : ∃ df, generate_dataframe_from_sys_infos env0 cfg2 [sysA] =
      Except.ok df := ⟨_, rfl⟩
  refine ⟨df, hdf, ?_⟩
  exact C1_score_resolution_amended env0 cfg2 [sysA] df 0
    { entries := [("dataset_name", Cell.str "d1")] } ⟨"d1", ["en"]⟩ [met0] met0 "sA" sysA
    hdf rfl rfl rfl rfl (List.mem_singleton.mpr rfl)
    ⟨sysA, List.mem_singleton.mpr rfl, rfl⟩ rfl

end Claims

end GlobalBench
